import Mathlib

/-!
Verification development for the sc2stats Liquipedia scraper
(`tools/scraper/data_parser.py`, `Olditeration/tools/scraper/data_parser.py`,
`Olditeration/tools/scraper/data_models.py`).

The wikitext is modelled as a list of characters; Python strings, dicts and
sets become lists and association lists; the fixed regular expressions of the
source are hand-compiled into explicit character scanners with the same
match/backtracking behaviour on the character class structure of each pattern.
Brace characters inside string literals are written with the escapes \x7b and
\x7d.
-/

namespace SC2Stats

/-- Python `str` modelled as a list of characters. -/
abbrev Str := List Char

/-- ASCII model of Python `str.strip()` (drop leading and trailing whitespace). -/
def pyStrip (s : Str) : Str :=
  ((s.dropWhile Char.isWhitespace).reverse.dropWhile Char.isWhitespace).reverse

/-- Model of `re.sub(r'[{}]', '', s)`: delete every brace character. -/
def stripBraces (s : Str) : Str :=
  s.filter (fun c => !(c == '{' || c == '}'))

/-- ASCII model of Python `str.lower()`. -/
def pyLower (s : Str) : Str := s.map Char.toLower

/-- Model of `s.replace(' ', '_')`. -/
def spacesToUnderscores (s : Str) : Str :=
  s.map (fun c => if c == ' ' then '_' else c)

/-- Value of a nonempty decimal digit string, as Python `int` computes it. -/
def digitsToNat (s : Str) : Nat :=
  s.foldl (fun acc c => acc * 10 + (c.toNat - '0'.toNat)) 0

/-- Tail of a digit group: decimal digits in which a single underscore may
appear, but only between two digits (so no trailing or doubled
underscore). -/
def digitsGroupedTail : Str → Bool
  | [] => true
  | '_' :: c :: rest => c.isDigit && digitsGroupedTail rest
  | c :: rest => c.isDigit && digitsGroupedTail rest

/-- Does `s` match `\d(_?\d)*` — a nonempty digit string with single
underscores only between digits, as Python numeric literals allow? -/
def isDigitsGrouped : Str → Bool
  | [] => false
  | c :: rest => c.isDigit && digitsGroupedTail rest

/-- ASCII model of Python `int(s)`: optional surrounding whitespace, one
optional sign, then a nonempty run of decimal digits in which single
underscores may stand between digits (numeric-literal grouping:
`int("0_1")` is 1); underscores are ignored for the value. -/
def pyInt (s : Str) : Option Int :=
  let t := pyStrip s
  match t with
  | '+' :: ds =>
      if isDigitsGrouped ds
      then some (digitsToNat (ds.filter (fun c => !(c == '_')))) else none
  | '-' :: ds =>
      if isDigitsGrouped ds
      then some (-(digitsToNat (ds.filter (fun c => !(c == '_'))) : Int)) else none
  | ds =>
      if isDigitsGrouped ds
      then some (digitsToNat (ds.filter (fun c => !(c == '_')))) else none

/-- Lexicographic comparison of character lists, as Python `<` on `str`. -/
def strLt : Str → Str → Bool
  | [], [] => false
  | [], _ :: _ => true
  | _ :: _, [] => false
  | a :: as, b :: bs => if a < b then true else if b < a then false else strLt as bs

/-- Model of Python `tuple(sorted([a, b]))` for two strings. -/
def sortPair (a b : Str) : Str × Str :=
  if strLt b a then (b, a) else (a, b)

/-- Model of ASCII `\w` (the pages parsed here are ASCII). -/
def isWordChar (c : Char) : Bool := c.isAlphanum || c == '_'

/-- Python dict lookup on an association list (insertion ordered). -/
def dictGet {K V : Type} [DecidableEq K] (d : List (K × V)) (k : K) : Option V :=
  (d.find? (fun kv => kv.1 = k)).map (·.2)

/-- Python dict insertion of a fresh key (every call site checks the key first). -/
def dictSet {K V : Type} (d : List (K × V)) (k : K) (v : V) : List (K × V) :=
  d ++ [(k, v)]

/-- Does `pat` occur in `hay` starting at index `i`? -/
def occursAt (hay pat : Str) (i : Nat) : Prop :=
  pat.isPrefixOf (hay.drop i) = true

instance (hay pat : Str) (i : Nat) : Decidable (occursAt hay pat i) := by
  unfold occursAt; infer_instance

/-- Scanning loop for `str.find`: first index `i ≤ j` at which `pat` occurs. -/
def strFindLoop (hay pat : Str) : Nat → Nat → Option Nat
  | _, 0 => none
  | i, fuel + 1 =>
      if pat.isPrefixOf (hay.drop i) then some i else strFindLoop hay pat (i + 1) fuel

/-- Model of Python `hay.find(pat, start)` (with `none` for `-1`). -/
def strFind (hay pat : Str) (start : Nat) : Option Nat :=
  if start ≤ hay.length then strFindLoop hay pat start (hay.length + 1 - start) else none

/-- Brace-counting loop of `_extract_match_content` /
`_extract_match_content_at_position`: `+1` per `{`, `-1` per `}`; when a
decrement makes the counter zero the scan stops and yields `i + 1`, the
exclusive end position.  `none` models the Python loop running off the end
with `end_pos` still at its initial value. -/
def braceScan : Str → Int → Nat → Option Nat
  | [], _, _ => none
  | c :: rest, count, i =>
      if c == '{' then braceScan rest (count + 1) (i + 1)
      else if c == '}' then
        if count - 1 = 0 then some (i + 1) else braceScan rest (count - 1) (i + 1)
      else braceScan rest count (i + 1)

/-- Shared tail of both match-block extractors: the slice
`wikitext[start_pos:end_pos]` produced by the brace-counting loop
(the empty slice when the braces never balance). -/
def extractFromPos (wikitext : Str) (start_pos : Nat) : Str :=
  match braceScan (wikitext.drop start_pos) 0 start_pos with
  | some end_pos => (wikitext.drop start_pos).take (end_pos - start_pos)
  | none => []

/-- Hand-compiled `re.search(lit ++ "([^}]+)\x7d\x7d", hay)` used by the old
variant's `_extract_opponents`: at each occurrence of the literal, the greedy
`[^}]+` runs to the first brace and the pattern then demands two closing
braces; otherwise the search resumes one character further. -/
def searchBraceCap (lit : Str) (hay : Str) : Option Str :=
  match hay with
  | [] => none
  | _ :: rest =>
      if lit.isPrefixOf hay then
        let tail := hay.drop lit.length
        let run := tail.takeWhile (fun c => !(c == '}'))
        if !run.isEmpty && ['}', '}'].isPrefixOf (tail.drop run.length) then some run
        else searchBraceCap lit rest
      else searchBraceCap lit rest

/-- Hand-compiled `re.search(lit ++ "([^|]+)", hay)` (the `p1=` / `p2=`
captures inside an opponent section). -/
def searchCapNoPipe (lit : Str) (hay : Str) : Option Str :=
  match hay with
  | [] => none
  | _ :: rest =>
      if lit.isPrefixOf hay then
        let run := (hay.drop lit.length).takeWhile (fun c => !(c == '|'))
        if run.isEmpty then searchCapNoPipe lit rest else some run
      else searchCapNoPipe lit rest

/-- Hand-compiled `re.search(lit ++ "([^|}]+)", hay)` (the `date=` capture). -/
def searchCapNoPipeBrace (lit : Str) (hay : Str) : Option Str :=
  match hay with
  | [] => none
  | _ :: rest =>
      if lit.isPrefixOf hay then
        let run := (hay.drop lit.length).takeWhile (fun c => !(c == '|' || c == '}'))
        if run.isEmpty then searchCapNoPipeBrace lit rest else some run
      else searchCapNoPipeBrace lit rest

/-- Hand-compiled `re.search(lit ++ "(\d+)", hay)` (the `bestof=` capture). -/
def searchDigits (lit : Str) (hay : Str) : Option Str :=
  match hay with
  | [] => none
  | _ :: rest =>
      if lit.isPrefixOf hay then
        let run := (hay.drop lit.length).takeWhile Char.isDigit
        if run.isEmpty then searchDigits lit rest else some run
      else searchDigits lit rest

/-- Inner scan of the aggregate-score pattern: within a window of non-brace
characters (the lazy `[^}]*?`), find `|score=` followed by digits and two
closing braces. -/
def scoreInWindow : Str → Option Nat
  | [] => none
  | w@(c :: rest) =>
      if c == '}' then none
      else if "|score=".toList.isPrefixOf w then
        let ds := (w.drop 7).takeWhile Char.isDigit
        if !ds.isEmpty && ['}', '}'].isPrefixOf ((w.drop 7).drop ds.length)
        then some (digitsToNat ds)
        else scoreInWindow rest
      else scoreInWindow rest

/-- Hand-compiled
`re.search(lit ++ "[^}]*?\|score=(\d+)\x7d\x7d", hay)` of the score-fallback
tier (`opponentN={{2Opponent|` is passed as `lit`); the digit capture is
returned already converted by `int`, which cannot fail on a `\d+` group. -/
def searchScore (lit : Str) (hay : Str) : Option Nat :=
  match hay with
  | [] => none
  | _ :: rest =>
      if lit.isPrefixOf hay then
        match scoreInWindow (hay.drop lit.length) with
        | some n => some n
        | none => searchScore lit rest
      else searchScore lit rest

/-- Tail of the per-map pattern after the map-name capture: within a window
of non-brace characters (the lazy `[^}]*?`), find `|winner=`, capture the
greedy `[^|}]+`, absorb the greedy `[^}]*` and demand two closing braces.
Returns the capture together with the suffix following the whole match
(`re.findall` resumes scanning there). -/
def winnerPart : Str → Option (Str × Str)
  | [] => none
  | w@(c :: rest) =>
      if c == '}' then none
      else if "|winner=".toList.isPrefixOf w then
        let cap := (w.drop 8).takeWhile (fun c => !(c == '|' || c == '}'))
        if cap.isEmpty then winnerPart rest
        else
          let t := (w.drop 8).drop cap.length
          let g := t.takeWhile (fun c => !(c == '}'))
          if ['}', '}'].isPrefixOf (t.drop g.length)
          then some (cap, (t.drop g.length).drop 2)
          else winnerPart rest
      else winnerPart rest

/-- Middle of the per-map pattern: within a window of non-brace characters
(the lazy `[^}]*?`), find `map=`, capture the greedy `[^|}]+`, then hand over
to `winnerPart`. -/
def mapCapPart : Str → Option (Str × Str × Str)
  | [] => none
  | w@(c :: rest) =>
      if c == '}' then none
      else if "map=".toList.isPrefixOf w then
        let cap := (w.drop 4).takeWhile (fun c => !(c == '|' || c == '}'))
        if cap.isEmpty then mapCapPart rest
        else
          match winnerPart ((w.drop 4).drop cap.length) with
          | some (wcap, suffix) => some (cap, wcap, suffix)
          | none => mapCapPart rest
      else mapCapPart rest

/-- Hand-compiled
`re.findall(r'map(\d+)={{Map\|[^}]*?map=([^|}]+)[^}]*?\|winner=([^|}]+)[^}]*\x7d\x7d', hay)`
of the detailed game tier: each entry is the triple
(game-number digits, map name, winner token).  Scanning is left to right and
non-overlapping, so after a full match it resumes at the suffix returned by
`winnerPart`; the fuel argument only bounds that outer scan. -/
def findMapEntriesGo : Str → Nat → List (Str × Str × Str)
  | _, 0 => []
  | [], _ => []
  | hay@(_ :: rest), fuel + 1 =>
      if "map".toList.isPrefixOf hay then
        let ds := (hay.drop 3).takeWhile Char.isDigit
        let after := (hay.drop 3).drop ds.length
        if !ds.isEmpty && "=\x7b\x7bMap|".toList.isPrefixOf after then
          match mapCapPart (after.drop 7) with
          | some (m, w, suffix) => (ds, m, w) :: findMapEntriesGo suffix fuel
          | none => findMapEntriesGo rest fuel
        else findMapEntriesGo rest fuel
      else findMapEntriesGo rest fuel

/-- Entry point for the per-map `re.findall` of `_extract_games_from_content`. -/
def findMapEntries (hay : Str) : List (Str × Str × Str) :=
  findMapEntriesGo hay (hay.length + 1)

/-- Hand-compiled `re.finditer(r'(\w+)={{Match', wikitext)` /
`re.findall` of the match assemblers: yields each raw marker together with
its start position.  A maximal word run not followed by `={{Match` can be
skipped whole, since a match starting inside the run would need the same
failing tail. -/
def findMatchMarkersGo : Str → Nat → Nat → List (Str × Nat)
  | _, _, 0 => []
  | [], _, _ => []
  | hay@(c :: rest), pos, fuel + 1 =>
      if isWordChar c then
        let run := hay.takeWhile isWordChar
        let after := hay.drop run.length
        if "=\x7b\x7bMatch".toList.isPrefixOf after then
          (run, pos) :: findMatchMarkersGo (after.drop 8) (pos + run.length + 8) fuel
        else findMatchMarkersGo after (pos + run.length) fuel
      else findMatchMarkersGo rest (pos + 1) fuel

/-- All raw match markers of a page, in document order, with positions. -/
def findMatchMarkers (wikitext : Str) : List (Str × Nat) :=
  findMatchMarkersGo wikitext 0 (wikitext.length + 1)

/-- Hand-compiled `re.sub(r'{{abbr/[^}]*\x7d\x7d', '', s)` used on extracted
date strings (vacuous there, because the `date=` capture can contain no
brace, but modelled faithfully). -/
def subAbbrGo : Str → Nat → Str
  | s, 0 => s
  | [], _ => []
  | hay@(c :: rest), fuel + 1 =>
      if "\x7b\x7babbr/".toList.isPrefixOf hay then
        let run := (hay.drop 7).takeWhile (fun c => !(c == '}'))
        if ['}', '}'].isPrefixOf ((hay.drop 7).drop run.length)
        then subAbbrGo (((hay.drop 7).drop run.length).drop 2) fuel
        else c :: subAbbrGo rest fuel
      else c :: subAbbrGo rest fuel

/-- Model of the `re.sub` cleaning an extracted date string. -/
def subAbbr (s : Str) : Str := subAbbrGo s (s.length + 1)

/-!
Data model, from `Olditeration/tools/scraper/data_models.py`.
The current variant `tools/scraper/data_parser.py` imports the same class
names from a `data_models` module that is not present under `src/`; the
structures below (matching spec section 3) serve both variants.
-/

/-- Match status enumeration. -/
inductive MatchStatus
  | scheduled
  | in_progress
  | completed
  | cancelled
deriving DecidableEq, Repr

/-- Tournament status enumeration. -/
inductive TournamentStatus
  | upcoming
  | ongoing
  | completed
  | cancelled
deriving DecidableEq, Repr

/-- A StarCraft 2 player (`db_id`, never read by the parsing core, is omitted). -/
structure Player where
  name : Str
  liquipedia_slug : Str
  race : Option Str := none
  nationality : Option Str := none
deriving DecidableEq, Repr

/-- Python `Player.__eq__` / `__hash__`: identity by canonical slug. -/
def Player.pyEq (a b : Player) : Bool :=
  decide (a.liquipedia_slug = b.liquipedia_slug)

/-- A 2v2 team. -/
structure Team where
  name : Str
  player1 : Player
  player2 : Player
deriving DecidableEq, Repr

/-- The sorted pair of the two players' slugs (the team's identity key). -/
def Team.slugKey (t : Team) : Str × Str :=
  sortPair t.player1.liquipedia_slug t.player2.liquipedia_slug

/-- Python `Team.__eq__` / `__hash__`: teams are equal when they have the
same unordered set of player slugs, i.e. the same sorted slug pair. -/
def Team.pyEq (a b : Team) : Bool :=
  decide (a.slugKey = b.slugKey)

/-- A single game (map) within a match.  `game_number` is an `Int` because
Python `int()` on an arbitrary token can be negative. -/
structure Game where
  game_number : Int
  map_name : Str
  winner : Option Team := none
  duration_seconds : Option Nat := none
deriving DecidableEq, Repr

/-- Python `game.winner == team` (`None == team` is `False`; Team equality
is by unordered slug pair). -/
def gameWonBy (g : Game) (t : Team) : Bool :=
  match g.winner with
  | some w => w.pyEq t
  | none => false

/-- A match between two teams (the wikitext path stores the extracted date
string in `match_date`). -/
structure Match where
  match_id : Str
  team1 : Team
  team2 : Team
  winner : Option Team := none
  best_of : Nat := 1
  status : MatchStatus := .scheduled
  match_date : Option Str := none
  games : List Game := []
  stage : Option Str := none
  team1_score : Nat := 0
  team2_score : Nat := 0
deriving DecidableEq, Repr

/-- The `Match.score` property.  Reading it can mutate the match, so it is
modelled as returning the score string together with the post-read match. -/
def Match.score (m : Match) : Str × Match :=
  if m.team1_score > 0 || m.team2_score > 0 then
    (Nat.toDigits 10 m.team1_score ++ '-' :: Nat.toDigits 10 m.team2_score, m)
  else if m.games.isEmpty then ("0-0".toList, m)
  else
    let team1_wins := m.games.countP (fun g => gameWonBy g m.team1)
    let team2_wins := m.games.countP (fun g => gameWonBy g m.team2)
    (Nat.toDigits 10 team1_wins ++ '-' :: Nat.toDigits 10 team2_wins,
     { m with team1_score := team1_wins, team2_score := team2_wins })

/-- Membership in a Python `set` of players (`__eq__` by slug). -/
def playerIn (ps : List Player) (p : Player) : Prop :=
  ∃ q ∈ ps, q.pyEq p = true

instance (ps : List Player) (p : Player) : Decidable (playerIn ps p) := by
  unfold playerIn; infer_instance

/-- Membership in a Python `set` of teams (`__eq__` by unordered slug pair). -/
def teamIn (ts : List Team) (t : Team) : Prop :=
  ∃ u ∈ ts, u.pyEq t = true

instance (ts : List Team) (t : Team) : Decidable (teamIn ts t) := by
  unfold teamIn; infer_instance

/-- Python `set.add` for players: a no-op when an equal element is present. -/
def playersInsert (ps : List Player) (p : Player) : List Player :=
  if playerIn ps p then ps else ps ++ [p]

/-- Python `set.add` for teams. -/
def teamsInsert (ts : List Team) (t : Team) : List Team :=
  if teamIn ts t then ts else ts ++ [t]

/-- Python `set.update` for players. -/
def playersUpdate (ps : List Player) (new : List Player) : List Player :=
  new.foldl playersInsert ps

/-- Python `set.update` for teams. -/
def teamsUpdate (ts : List Team) (new : List Team) : List Team :=
  new.foldl teamsInsert ts

/-- A tournament (aggregate root; `players`/`teams` are Python sets modelled
as duplicate-free-by-`pyEq` lists). -/
structure Tournament where
  name : Str
  liquipedia_slug : Str
  start_date : Option Str := none
  end_date : Option Str := none
  prize_pool : Nat := 0
  location : Str := []
  status : TournamentStatus := .upcoming
  maps : List Str := []
  matches' : List Match := []
  players : List Player := []
  teams : List Team := []
deriving DecidableEq, Repr

/-- The `Tournament.add_match` method: append the match and automatically add
its teams and their players. -/
def Tournament.add_match (t : Tournament) (m : Match) : Tournament :=
  { t with
    matches' := t.matches' ++ [m]
    teams := teamsInsert (teamsInsert t.teams m.team1) m.team2
    players :=
      playersInsert
        (playersInsert
          (playersInsert (playersInsert t.players m.team1.player1) m.team1.player2)
          m.team2.player1)
        m.team2.player2 }

/-- A match references only entities present in the tournament's `players`
and `teams` sets (the property of claim C9 for one match). -/
def matchRefClosed (t : Tournament) (m : Match) : Prop :=
  teamIn t.teams m.team1 ∧ teamIn t.teams m.team2 ∧
  playerIn t.players m.team1.player1 ∧ playerIn t.players m.team1.player2 ∧
  playerIn t.players m.team2.player1 ∧ playerIn t.players m.team2.player2 ∧
  (∀ w, m.winner = some w → teamIn t.teams w) ∧
  (∀ g ∈ m.games, ∀ w, g.winner = some w → teamIn t.teams w)

instance (t : Tournament) (m : Match) : Decidable (matchRefClosed t m) := by
  unfold matchRefClosed; infer_instance

/-- Every player and team referenced by any match of the tournament appears
in `players` / `teams` respectively. -/
def Tournament.refClosed (t : Tournament) : Prop :=
  ∀ m ∈ t.matches', matchRefClosed t m

instance (t : Tournament) : Decidable t.refClosed := by
  unfold Tournament.refClosed; infer_instance

/-!
Shared helpers of the two `DataParser` variants.  The bodies of
`_extract_best_of`, `_extract_date_from_content`, `_extract_stage` and the
detailed-tier game loop are identical in `tools/scraper/data_parser.py` and
`Olditeration/tools/scraper/data_parser.py`, so they are defined once.
-/

/-- Python `match_id.startswith('M') and match_id[1:].isdigit()`. -/
def startsWithMDigits (match_id : Str) : Bool :=
  match match_id with
  | 'M' :: rest => !rest.isEmpty && rest.all Char.isDigit
  | _ => false

/-- The `_extract_best_of` helper: `bestof=(\d+)` capture, default 3. -/
def extract_best_of (match_content : Str) : Nat :=
  match searchDigits "bestof=".toList match_content with
  | some ds => digitsToNat ds
  | none => 3

/-- The `_extract_date_from_content` helper: `date=([^|}]+)` capture, with
the `{{abbr/...}}` substitution and strip applied. -/
def extract_date_from_content (match_content : Str) : Option Str :=
  (searchCapNoPipeBrace "date=".toList match_content).map (fun d => pyStrip (subAbbr d))

/-- The `_extract_stage` helper: stage label from the (final) match id. -/
def extract_stage (match_id : Str) : Str :=
  if ['R'].isPrefixOf match_id then "Playoffs".toList
  else if ['M'].isPrefixOf match_id then "Group Stage".toList
  else "Unknown".toList

/-- Body of the detailed-tier game loop (identical in both variants): one
`(game number digits, map name, winner token)` triple either yields a `Game`
or is skipped.  `int(game_num_str)` and `int(winner_str)` failures raise a
caught `ValueError`, i.e. skip the entry. -/
def resolveDetailedGame (team1 team2 : Team) : Str × Str × Str → Option Game
  | (game_num_str, map_name, winner_str) =>
  match pyInt game_num_str with
  | none => none
  | some game_number =>
      if winner_str = "skip".toList then none
      else if winner_str = "0".toList then none
      else
        match pyInt winner_str with
        | none => none
        | some winner_num =>
            if winner_num = 1 then
              some { game_number, map_name, winner := some team1, duration_seconds := none }
            else if winner_num = 2 then
              some { game_number, map_name, winner := some team2, duration_seconds := none }
            else none

/-- The literal head of the `opponent1` aggregate-score pattern. -/
def scoreLit1 : Str := "opponent1=\x7b\x7b2Opponent|".toList

/-- The literal head of the `opponent2` aggregate-score pattern. -/
def scoreLit2 : Str := "opponent2=\x7b\x7b2Opponent|".toList

/-- The placeholder games synthesized from aggregate scores
(`for game_num in range(1, total_games + 1)` with map "Unknown Map" and no
winner), guarded by `if total_games > 0` as in the source. -/
def synthGames (total_games : Nat) : List Game :=
  if 0 < total_games then
    (List.range total_games).map (fun (k : Nat) =>
      { game_number := (k : Int) + 1
        map_name := "Unknown Map".toList
        winner := none
        duration_seconds := none })
  else []

namespace Old

/-!
Embedding of `Olditeration/tools/scraper/data_parser.py` (class `DataParser`).
-/

/-- The caches of one `DataParser` instance: `players_cache` keyed by
canonical slug, `teams_cache` keyed by the sorted slug pair. -/
structure PState where
  players_cache : List (Str × Player) := []
  teams_cache : List ((Str × Str) × Team) := []
deriving DecidableEq, Repr

/-- The canonical slug `_get_or_create_player` derives from a raw name:
strip brace characters, trim whitespace, lowercase, spaces to underscores. -/
def canonSlug (name : Str) : Str :=
  spacesToUnderscores (pyLower (pyStrip (stripBraces name)))

/-- The `_get_or_create_player` method. -/
def get_or_create_player (st : PState) (name : Str) : Player × PState :=
  let clean_name := pyStrip (stripBraces name)
  let slug := spacesToUnderscores (pyLower clean_name)
  match dictGet st.players_cache slug with
  | some player => (player, st)
  | none =>
      let player : Player :=
        { name := clean_name, liquipedia_slug := slug, nationality := none, race := none }
      (player, { st with players_cache := dictSet st.players_cache slug player })

/-- The `_get_or_create_team` method: cache key is the sorted slug pair. -/
def get_or_create_team (st : PState) (name : Str) (player1 player2 : Player) :
    Team × PState :=
  let team_key := sortPair player1.liquipedia_slug player2.liquipedia_slug
  match dictGet st.teams_cache team_key with
  | some team => (team, st)
  | none =>
      let team : Team := { name, player1, player2 }
      (team, { st with teams_cache := dictSet st.teams_cache team_key team })

/-- The `_create_teams_from_opponents` method (the four interned players and
the two interned teams, threading the caches; `rN.1` / `rN.2` are the value
and post-state of each call). -/
def create_teams_from_opponents (st : PState) : Str × Str × Str × Str →
    (Team × Team) × PState
  | (p1_1, p1_2, p2_1, p2_2) =>
    let r1 := get_or_create_player st (pyStrip p1_1)
    let r2 := get_or_create_player r1.2 (pyStrip p1_2)
    let r3 := get_or_create_player r2.2 (pyStrip p2_1)
    let r4 := get_or_create_player r3.2 (pyStrip p2_2)
    let r5 := get_or_create_team r4.2 (r1.1.name ++ " + ".toList ++ r2.1.name) r1.1 r2.1
    let r6 := get_or_create_team r5.2 (r3.1.name ++ " + ".toList ++ r4.1.name) r3.1 r4.1
    ((r5.1, r6.1), r6.2)

/-- The `_extract_match_content_at_position` method: the marker (first the
bare variant, then the variant with a leading pipe) is located at or after
`position`, and the block is delimited by the brace-counting loop. -/
def extract_match_content_at_position (wikitext : Str) (match_id : Str)
    (position : Nat) : Option Str :=
  let start_marker := match_id ++ "=\x7b\x7bMatch".toList
  match strFind wikitext start_marker position with
  | some start_pos => some (extractFromPos wikitext start_pos)
  | none =>
      match strFind wikitext ('|' :: start_marker) position with
      | some start_pos => some (extractFromPos wikitext start_pos)
      | none => none

/-- The old variant's `_extract_opponents`: each opponent section is the
`[^}]+` capture after `opponentN={{2Opponent|`, and the four names are the
`p1=` / `p2=` captures within the two sections. -/
def extract_opponents (match_content : Str) : Option (Str × Str × Str × Str) :=
  match searchBraceCap ("opponent1=\x7b\x7b2Opponent|".toList) match_content,
        searchBraceCap ("opponent2=\x7b\x7b2Opponent|".toList) match_content with
  | some opp1_content, some opp2_content =>
      match searchCapNoPipe "p1=".toList opp1_content,
            searchCapNoPipe "p2=".toList opp1_content,
            searchCapNoPipe "p1=".toList opp2_content,
            searchCapNoPipe "p2=".toList opp2_content with
      | some p1_1, some p1_2, some p2_1, some p2_2 => some (p1_1, p1_2, p2_1, p2_2)
      | _, _, _, _ => none
  | _, _ => none

set_option linter.unusedVariables false in
/-- The `_generate_final_match_id` method.  The `position` argument (the
enumeration index `i` of the assembler loop) is accepted but never used:
group membership is decided purely by the seen-set `existing_match_ids`. -/
def generate_final_match_id (tournament_slug : Str) (match_id : Str)
    (existing_match_ids : List Str) (position : Nat) : Str :=
  let base_slug := tournament_slug.map (fun c => if c == '/' then '_' else c)
  if startsWithMDigits match_id then
    if match_id ∈ existing_match_ids then
      base_slug ++ "_B_".toList ++ match_id
    else
      base_slug ++ "_A_".toList ++ match_id
  else base_slug ++ ('_' :: match_id)

/-- Core of the old `_extract_games_from_content`, with the results of the
two regex scans as arguments: the detailed tier when the per-map findall is
nonempty, otherwise the aggregate-score fallback synthesizing
`score1 + score2` placeholder games. -/
def extract_games_core (map_matches : List (Str × Str × Str))
    (score1 score2 : Option Nat) (team1 team2 : Team) : List Game :=
  if !map_matches.isEmpty then
    map_matches.filterMap (resolveDetailedGame team1 team2)
  else
    match score1, score2 with
    | some s1, some s2 => synthGames (s1 + s2)
    | _, _ => []

/-- The old `_extract_games_from_content` on raw match content. -/
def extract_games_from_content (match_content : Str) (team1 team2 : Team) : List Game :=
  extract_games_core (findMapEntries match_content)
    (searchScore scoreLit1 match_content) (searchScore scoreLit2 match_content)
    team1 team2

/-- Core of the old `_create_match_from_wikitext`, with the regex scan
results as arguments (the winner branch re-runs the same pure score scans the
game tier used, so they are shared). -/
def create_match_core (match_id : Str) (team1 team2 : Team)
    (map_matches : List (Str × Str × Str)) (score1 score2 : Option Nat)
    (best_of_raw : Nat) (date_str : Option Str) : Match :=
  let best_of := if best_of_raw = 0 then 3 else best_of_raw
  let games := extract_games_core map_matches score1 score2 team1 team2
  let m : Match :=
    { match_id, team1, team2, winner := none, best_of
      status := .completed, match_date := date_str, games
      stage := some (extract_stage match_id), team1_score := 0, team2_score := 0 }
  if games.isEmpty then m
  else
    let team1_wins := games.countP (fun g => gameWonBy g team1)
    let team2_wins := games.countP (fun g => gameWonBy g team2)
    if team2_wins < team1_wins then { m with winner := some team1 }
    else if team1_wins < team2_wins then { m with winner := some team2 }
    else if team1_wins = 0 && team2_wins = 0 then
      match score1, score2 with
      | some s1, some s2 =>
          let m := { m with team1_score := s1, team2_score := s2 }
          if s2 < s1 then { m with winner := some team1 }
          else if s1 < s2 then { m with winner := some team2 }
          else m
      | _, _ => m
    else m

/-- The old `_create_match_from_wikitext` on raw match content. -/
def create_match_from_wikitext (match_id : Str) (team1 team2 : Team)
    (match_content : Str) : Match :=
  create_match_core match_id team1 team2 (findMapEntries match_content)
    (searchScore scoreLit1 match_content) (searchScore scoreLit2 match_content)
    (extract_best_of match_content) (extract_date_from_content match_content)

/-- The unique key `f"{team1.name}_vs_{team2.name}_{final_match_id}"` used
for true-duplicate detection. -/
def match_unique_key (team1 team2 : Team) (final_match_id : Str) : Str :=
  team1.name ++ "_vs_".toList ++ team2.name ++ ('_' :: final_match_id)

/-- The mutable state of the assembler loop of `parse_matches_from_wikitext`. -/
structure LoopState where
  ps : PState
  processed_matches : List Str := []
  existing_match_ids : List Str := []
  acc : List Match := []
deriving DecidableEq, Repr

/-- One iteration of the old assembler loop, for the marker occurrence
`(match_id, position)` at enumeration index `i`.  Failure of any extraction
step skips the marker; a true duplicate is discarded after the caches were
already updated, exactly as in the source. -/
def parse_match_step (tournament_slug : Str) (wikitext : Str) (st : LoopState) :
    (Str × Nat) × Nat → LoopState
  | ((match_id, position), i) =>
  match extract_match_content_at_position wikitext match_id position with
  | none => st
  | some match_content =>
      if match_content.isEmpty then st
      else
        match extract_opponents match_content with
        | none => st
        | some opponents =>
            let ((team1, team2), ps') := create_teams_from_opponents st.ps opponents
            let final_match_id :=
              generate_final_match_id tournament_slug match_id st.existing_match_ids i
            let unique_key := match_unique_key team1 team2 final_match_id
            if unique_key ∈ st.processed_matches then { st with ps := ps' }
            else
              let m := create_match_from_wikitext final_match_id team1 team2 match_content
              { ps := ps'
                processed_matches := st.processed_matches ++ [unique_key]
                existing_match_ids := st.existing_match_ids ++ [match_id]
                acc := st.acc ++ [m] }

/-- The old `parse_matches_from_wikitext`: find all markers with positions,
run the assembler loop, then copy every cached player and team into the
tournament's sets. -/
def parse_matches_from_wikitext (ps : PState) (tournament : Tournament)
    (wikitext : Str) : Tournament × PState :=
  let match_positions := findMatchMarkers wikitext
  let final :=
    (match_positions.enum.map (fun p => (p.2, p.1))).foldl
      (parse_match_step tournament.liquipedia_slug wikitext)
      { ps := ps }
  ({ tournament with
     matches' := tournament.matches' ++ final.acc
     players := playersUpdate tournament.players (final.ps.players_cache.map (·.2))
     teams := teamsUpdate tournament.teams (final.ps.teams_cache.map (·.2)) },
   final.ps)

end Old

namespace Tools

/-!
Embedding of the current variant `tools/scraper/data_parser.py`
(the enhanced-wikitext-parsing methods of class `DataParser`).
-/

/-- The enhanced-parsing caches: `players_cache_by_name` keyed by the raw
name string, `teams_cache_by_key` keyed by the concatenated player names. -/
structure PState where
  players_cache_by_name : List (Str × Player) := []
  teams_cache_by_key : List (Str × Team) := []
deriving DecidableEq, Repr

/-- The `_get_or_create_player_by_name` method: the cache key is the raw
`name` argument; the cleaned name and slug are only computed on creation. -/
def get_or_create_player_by_name (st : PState) (name : Str) : Player × PState :=
  match dictGet st.players_cache_by_name name with
  | some player => (player, st)
  | none =>
      let clean_name := pyStrip (stripBraces name)
      let player : Player :=
        { name := clean_name
          liquipedia_slug := spacesToUnderscores (pyLower clean_name)
          nationality := none, race := none }
      (player, { st with players_cache_by_name := dictSet st.players_cache_by_name name player })

/-- The `_get_or_create_team_by_players` method: the cache key is
`f"{player1.name}+{player2.name}"`, in argument order. -/
def get_or_create_team_by_players (st : PState) (name : Str)
    (player1 player2 : Player) : Team × PState :=
  let team_key := player1.name ++ ('+' :: player2.name)
  match dictGet st.teams_cache_by_key team_key with
  | some team => (team, st)
  | none =>
      let team : Team := { name, player1, player2 }
      (team, { st with teams_cache_by_key := dictSet st.teams_cache_by_key team_key team })

/-- The current `_extract_match_content`: the marker is located with a plain
`find` from position 0 (no position hint, no pipe variant), then the block is
delimited by the brace-counting loop. -/
def extract_match_content (wikitext : Str) (match_id : Str) : Option Str :=
  match strFind wikitext (match_id ++ "=\x7b\x7bMatch".toList) 0 with
  | some start_pos => some (extractFromPos wikitext start_pos)
  | none => none

/-- One side of the current `_extract_opponents` pattern
`opponentN={{2Opponent\|p1=([^|]+)(?:\|p1race=[^|]+)?\|p2=([^|}]+)`: at each
occurrence of the literal up to `p1=`, capture the greedy `[^|]+`, try the
optional race group first (greedy), then demand `|p2=` and the second
capture; on failure the search resumes one character further. -/
def extractOpponentSide (lit : Str) (hay : Str) : Option (Str × Str) :=
  match hay with
  | [] => none
  | _ :: rest =>
      if lit.isPrefixOf hay then
        let t := hay.drop lit.length
        let a := t.takeWhile (fun c => !(c == '|'))
        if a.isEmpty then extractOpponentSide lit rest
        else
          let u := t.drop a.length
          let tryP2 : Str → Option Str := fun v =>
            if "|p2=".toList.isPrefixOf v then
              let b := (v.drop 4).takeWhile (fun c => !(c == '|' || c == '}'))
              if b.isEmpty then none else some b
            else none
          let withRace : Option Str :=
            if "|p1race=".toList.isPrefixOf u then
              let r := (u.drop 8).takeWhile (fun c => !(c == '|'))
              if r.isEmpty then none else some ((u.drop 8).drop r.length)
            else none
          match withRace with
          | some v =>
              match tryP2 v with
              | some b => some (a, b)
              | none =>
                  match tryP2 u with
                  | some b => some (a, b)
                  | none => extractOpponentSide lit rest
          | none =>
              match tryP2 u with
              | some b => some (a, b)
              | none => extractOpponentSide lit rest
      else extractOpponentSide lit rest

/-- The current `_extract_opponents`. -/
def extract_opponents (match_content : Str) : Option (Str × Str × Str × Str) :=
  match extractOpponentSide ("opponent1=\x7b\x7b2Opponent|p1=".toList) match_content,
        extractOpponentSide ("opponent2=\x7b\x7b2Opponent|p1=".toList) match_content with
  | some (p1_1, p1_2), some (p2_1, p2_2) => some (p1_1, p1_2, p2_1, p2_2)
  | _, _ => none

/-- The inline final-match-id logic of the current assembler (lines 129-138):
the first occurrence keeps the raw id; a duplicate of an `M`+digits id gets
the group suffix decided by the fixed positional threshold `i < 18`. -/
def finalMatchId (existing_ids : List Str) (match_id : Str) (i : Nat) : Str :=
  if match_id ∈ existing_ids then
    if startsWithMDigits match_id then
      (if i < 18 then "A_".toList else "B_".toList) ++ match_id
    else match_id
  else match_id

/-- The current `_extract_games_from_content`: detailed tier only, no
aggregate-score fallback. -/
def extract_games_from_content (match_content : Str) (team1 team2 : Team) : List Game :=
  (findMapEntries match_content).filterMap (resolveDetailedGame team1 team2)

/-- The current `_create_match_from_wikitext`: like the old one but the
winner is only ever derived from individual game wins. -/
def create_match_from_wikitext (match_id : Str) (team1 team2 : Team)
    (match_content : Str) : Match :=
  let best_of_raw := extract_best_of match_content
  let best_of := if best_of_raw = 0 then 3 else best_of_raw
  let games := extract_games_from_content match_content team1 team2
  let m : Match :=
    { match_id, team1, team2, winner := none, best_of
      status := .completed, match_date := extract_date_from_content match_content
      games, stage := some (extract_stage match_id)
      team1_score := 0, team2_score := 0 }
  if games.isEmpty then m
  else
    let team1_wins := games.countP (fun g => gameWonBy g team1)
    let team2_wins := games.countP (fun g => gameWonBy g team2)
    if team2_wins < team1_wins then { m with winner := some team1 }
    else if team1_wins < team2_wins then { m with winner := some team2 }
    else m

/-- The mutable state of the current assembler loop. -/
structure LoopState where
  ps : PState
  processed_matches : List Str := []
  acc : List Match := []
deriving DecidableEq, Repr

/-- One iteration of the current assembler loop for raw marker `match_id` at
enumeration index `i` (`existing` is `[m.match_id for m in tournament.matches]`
at the time of the check, i.e. the initial matches plus those appended so
far). -/
def parse_match_step (tournament_matches : List Match) (wikitext : Str)
    (st : LoopState) : Nat × Str → LoopState
  | (i, match_id) =>
  match extract_match_content wikitext match_id with
  | none => st
  | some match_content =>
      if match_content.isEmpty then st
      else
        match extract_opponents match_content with
        | none => st
        | some (p1_1, p1_2, p2_1, p2_2) =>
            let r1 := get_or_create_player_by_name st.ps (pyStrip p1_1)
            let r2 := get_or_create_player_by_name r1.2 (pyStrip p1_2)
            let r3 := get_or_create_player_by_name r2.2 (pyStrip p2_1)
            let r4 := get_or_create_player_by_name r3.2 (pyStrip p2_2)
            let r5 := get_or_create_team_by_players r4.2
              (r1.1.name ++ " + ".toList ++ r2.1.name) r1.1 r2.1
            let r6 := get_or_create_team_by_players r5.2
              (r3.1.name ++ " + ".toList ++ r4.1.name) r3.1 r4.1
            let existing := (tournament_matches ++ st.acc).map (·.match_id)
            let final_match_id := finalMatchId existing match_id i
            let unique_key := Old.match_unique_key r5.1 r6.1 final_match_id
            if unique_key ∈ st.processed_matches then { st with ps := r6.2 }
            else
              let m := create_match_from_wikitext final_match_id r5.1 r6.1 match_content
              { ps := r6.2
                processed_matches := st.processed_matches ++ [unique_key]
                acc := st.acc ++ [m] }

/-- The current `parse_matches_from_wikitext` (markers via `re.findall`, no
positions; all block extraction starts from position 0). -/
def parse_matches_from_wikitext (ps : PState) (tournament : Tournament)
    (wikitext : Str) : Tournament × PState :=
  let match_ids := (findMatchMarkers wikitext).map (·.1)
  let final :=
    match_ids.enum.foldl (parse_match_step tournament.matches' wikitext) { ps := ps }
  ({ tournament with
     matches' := tournament.matches' ++ final.acc
     players := playersUpdate tournament.players (final.ps.players_cache_by_name.map (·.2))
     teams := teamsUpdate tournament.teams (final.ps.teams_cache_by_key.map (·.2)) },
   final.ps)

end Tools

/-- The per-match loop of the current `parse_matches_from_lpdb`
(lines 77-87): each raw row is parsed by `_parse_match_from_lpdb` into an
optional `Match` and, when present, added via `Tournament.add_match`.  The
per-row parser (dict plumbing, datetime parsing) is abstracted into the list
of its results, since the referential-closure property of claim C9 depends
only on `add_match`. -/
def parse_matches_from_lpdb_loop (tournament : Tournament)
    (parsed : List (Option Match)) : Tournament :=
  parsed.foldl
    (fun t om =>
      match om with
      | some m => t.add_match m
      | none => t)
    tournament

/-- A match whose winner and game winners are all drawn from its own two
teams.  `_parse_match_from_lpdb` guarantees this (winners are assigned only
the `team1` / `team2` objects), and the wikitext match builders are proved
below to establish it. -/
def Match.selfContained (m : Match) : Prop :=
  (m.winner = none ∨ m.winner = some m.team1 ∨ m.winner = some m.team2) ∧
  ∀ g ∈ m.games, g.winner = none ∨ g.winner = some m.team1 ∨ g.winner = some m.team2

instance (m : Match) : Decidable m.selfContained := by
  unfold Match.selfContained; infer_instance

/-!
Concrete pages used as test inputs for the theorems below.
-/

/-- A fresh tournament as `parse_tournament_from_wikitext` creates it
(slug `testcup`, no matches yet). -/
def freshT : Tournament :=
  { name := "Test Cup".toList, liquipedia_slug := "testcup".toList }

/-- A page with two match blocks both raw-tagged `M1`, with different
opponents in each block. -/
def pageTwoM1 : Str :=
  ("|M1=\x7b\x7bMatch|bestof=3|opponent1=\x7b\x7b2Opponent|p1=Alice|p2=Bob\x7d\x7d" ++
   "|opponent2=\x7b\x7b2Opponent|p1=Cara|p2=Dan\x7d\x7d\x7d\x7d\n" ++
   "|M1=\x7b\x7bMatch|bestof=3|opponent1=\x7b\x7b2Opponent|p1=Eve|p2=Finn\x7d\x7d" ++
   "|opponent2=\x7b\x7b2Opponent|p1=Gus|p2=Hal\x7d\x7d\x7d\x7d").toList

/-- A page with two byte-identical match blocks for the raw marker `M1`. -/
def pageTwoM1Dup : Str :=
  ("|M1=\x7b\x7bMatch|bestof=3|opponent1=\x7b\x7b2Opponent|p1=Alice|p2=Bob\x7d\x7d" ++
   "|opponent2=\x7b\x7b2Opponent|p1=Cara|p2=Dan\x7d\x7d\x7d\x7d\n" ++
   "|M1=\x7b\x7bMatch|bestof=3|opponent1=\x7b\x7b2Opponent|p1=Alice|p2=Bob\x7d\x7d" ++
   "|opponent2=\x7b\x7b2Opponent|p1=Cara|p2=Dan\x7d\x7d\x7d\x7d").toList

/-- A page with two byte-identical match blocks for the raw marker `R1M1`
(not of the `M`+digits shape). -/
def pageTwoR1M1Dup : Str :=
  ("|R1M1=\x7b\x7bMatch|bestof=3|opponent1=\x7b\x7b2Opponent|p1=Alice|p2=Bob\x7d\x7d" ++
   "|opponent2=\x7b\x7b2Opponent|p1=Cara|p2=Dan\x7d\x7d\x7d\x7d\n" ++
   "|R1M1=\x7b\x7bMatch|bestof=3|opponent1=\x7b\x7b2Opponent|p1=Alice|p2=Bob\x7d\x7d" ++
   "|opponent2=\x7b\x7b2Opponent|p1=Cara|p2=Dan\x7d\x7d\x7d\x7d").toList

/-!
Concrete entities used by witnesses and counterexamples.
-/

/-- A concrete player. -/
def pAlice : Player := { name := "Alice".toList, liquipedia_slug := "alice".toList }

/-- A concrete player. -/
def pBob : Player := { name := "Bob".toList, liquipedia_slug := "bob".toList }

/-- A concrete player. -/
def pCara : Player := { name := "Cara".toList, liquipedia_slug := "cara".toList }

/-- A concrete player. -/
def pDan : Player := { name := "Dan".toList, liquipedia_slug := "dan".toList }

/-- A concrete team. -/
def tAB : Team := { name := "Alice + Bob".toList, player1 := pAlice, player2 := pBob }

/-- A concrete team. -/
def tCD : Team := { name := "Cara + Dan".toList, player1 := pCara, player2 := pDan }

/-!
Lemmas about the string order and the cache primitives.
-/

theorem strLt_asymm (a : Str) : ∀ b : Str, strLt a b = true → strLt b a = false := by
  induction a with
  | nil => intro b h; cases b <;> simp [strLt]
  | cons x xs ih =>
      intro b h
      cases b with
      | nil => simp [strLt] at h
      | cons y ys =>
          simp only [strLt] at h ⊢
          by_cases hxy : x < y
          · have : ¬ y < x := lt_asymm hxy
            simp [hxy, this]
          · by_cases hyx : y < x
            · simp [hxy, hyx] at h
            · simp [hxy, hyx] at h ⊢
              exact ih ys h

theorem strLt_eq_of_not_lt (a : Str) :
    ∀ b : Str, strLt a b = false → strLt b a = false → a = b := by
  induction a with
  | nil => intro b h _; cases b with
      | nil => rfl
      | cons y ys => simp [strLt] at h
  | cons x xs ih =>
      intro b h h'
      cases b with
      | nil => simp [strLt] at h'
      | cons y ys =>
          simp only [strLt] at h h'
          by_cases hxy : x < y
          · simp [hxy] at h
          · by_cases hyx : y < x
            · simp [hyx, hxy] at h'
            · have hx : x = y := le_antisymm (not_lt.mp hyx) (not_lt.mp hxy)
              simp [hxy, hyx] at h h'
              exact hx ▸ congrArg (x :: ·) (ih ys h h')

theorem sortPair_comm (a b : Str) : sortPair a b = sortPair b a := by
  unfold sortPair
  by_cases h1 : strLt b a = true
  · have h2 : strLt a b = false := strLt_asymm b a h1
    simp [h1, h2]
  · by_cases h2 : strLt a b = true
    · simp [h1, h2]
    · have : b = a := strLt_eq_of_not_lt b a (by simpa using h1) (by simpa using h2)
      simp [h1, h2, this]

theorem dictGet_dictSet_self {K V : Type} [DecidableEq K] (d : List (K × V)) (k : K)
    (v : V) (h : dictGet d k = none) : dictGet (dictSet d k v) k = some v := by
  unfold dictGet dictSet
  unfold dictGet at h
  rw [List.find?_append]
  simp only [Option.map_eq_none'] at h  -- find? d = none
  simp [h]

/-!
Claim C3: symmetry of team interning.
-/

/-- C3 (amended, proved part): the Olditeration team interner
`_get_or_create_team` is symmetric in its two players — the cache key is the
lexicographically sorted slug pair, so after `team(A,B)` the call
`team(B,A)` is a pure cache hit returning the identical team record and
leaving the parser state unchanged, whatever display names the two calls
pass. -/
theorem C3_amended_old_team_interning_symmetric (st : Old.PState)
    (name1 name2 : Str) (p q : Player) :
    Old.get_or_create_team (Old.get_or_create_team st name1 p q).2 name2 q p =
      ((Old.get_or_create_team st name1 p q).1, (Old.get_or_create_team st name1 p q).2) := by
  unfold Old.get_or_create_team
  have hkey : sortPair q.liquipedia_slug p.liquipedia_slug =
      sortPair p.liquipedia_slug q.liquipedia_slug := sortPair_comm _ _
  cases h : dictGet st.teams_cache (sortPair p.liquipedia_slug q.liquipedia_slug) with
  | some team => simp [h, hkey]
  | none =>
      simp only [h, hkey]
      rw [dictGet_dictSet_self _ _ _ h]

/-- C3 (counterexample): in the current variant the cache key of
`_get_or_create_team_by_players` is the concatenation of the two display
names in call order, not a sorted pair, so `team(A,B)` and `team(B,A)`
return two distinct Team records (with differently ordered display names)
and the cache ends up holding both. -/
theorem C3_counterexample_team_interning_not_symmetric :
    (Tools.get_or_create_team_by_players
        (Tools.get_or_create_team_by_players {} "Alice + Bob".toList pAlice pBob).2
        "Bob + Alice".toList pBob pAlice).1 ≠
      (Tools.get_or_create_team_by_players {} "Alice + Bob".toList pAlice pBob).1 ∧
    (Tools.get_or_create_team_by_players
        (Tools.get_or_create_team_by_players {} "Alice + Bob".toList pAlice pBob).2
        "Bob + Alice".toList pBob pAlice).1.name ≠
      (Tools.get_or_create_team_by_players {} "Alice + Bob".toList pAlice pBob).1.name ∧
    (Tools.get_or_create_team_by_players
        (Tools.get_or_create_team_by_players {} "Alice + Bob".toList pAlice pBob).2
        "Bob + Alice".toList pBob pAlice).2.teams_cache_by_key.length = 2 := by
  refine ⟨?_, ?_, ?_⟩ <;> decide

/-!
Claim C4: idempotence of player interning.
-/

/-- C4 (amended, proved part): the Olditeration player interner
`_get_or_create_player` is keyed by the canonical slug (strip braces, trim,
lowercase, spaces to underscores), so any second call whose name
canonicalizes to the same slug returns the player created or found by the
first call and leaves the parser state unchanged. -/
theorem C4_amended_old_player_interning_idempotent (st : Old.PState)
    (name1 name2 : Str) (h : Old.canonSlug name1 = Old.canonSlug name2) :
    Old.get_or_create_player (Old.get_or_create_player st name1).2 name2 =
      ((Old.get_or_create_player st name1).1, (Old.get_or_create_player st name1).2) := by
  unfold Old.get_or_create_player
  have hslug : spacesToUnderscores (pyLower (pyStrip (stripBraces name2))) =
      spacesToUnderscores (pyLower (pyStrip (stripBraces name1))) := by
    have := h; unfold Old.canonSlug at this; exact this.symm
  cases hc : dictGet st.players_cache
      (spacesToUnderscores (pyLower (pyStrip (stripBraces name1)))) with
  | some player => simp [hc, hslug]
  | none =>
      simp only [hc, hslug]
      rw [dictGet_dictSet_self _ _ _ hc]

/-- C4 (witness): the amended idempotence at the names `"Alice"` and
`" ALICE "`, which canonicalize to the same slug. -/
theorem C4_witness :
    Old.canonSlug "Alice".toList = Old.canonSlug " ALICE ".toList ∧
    Old.get_or_create_player (Old.get_or_create_player {} "Alice".toList).2 " ALICE ".toList =
      ((Old.get_or_create_player {} "Alice".toList).1,
       (Old.get_or_create_player {} "Alice".toList).2) :=
  ⟨by decide, C4_amended_old_player_interning_idempotent {} _ _ (by decide)⟩

/-- C4 (counterexample): the current variant's
`_get_or_create_player_by_name` caches by the raw name string, so the names
`"Alice"` and `"ALICE"` — which canonicalize to the same slug `alice` —
produce two distinct Player records, and the second call does not return the
instance created by the first. -/
theorem C4_counterexample_player_interning_not_idempotent :
    (Old.canonSlug "Alice".toList = Old.canonSlug "ALICE".toList) ∧
    (Tools.get_or_create_player_by_name
        (Tools.get_or_create_player_by_name {} "Alice".toList).2 "ALICE".toList).1 ≠
      (Tools.get_or_create_player_by_name {} "Alice".toList).1 ∧
    (Tools.get_or_create_player_by_name
        (Tools.get_or_create_player_by_name {} "Alice".toList).2
        "ALICE".toList).2.players_cache_by_name.length = 2 := by
  refine ⟨?_, ?_, ?_⟩ <;> decide

/-!
Claim C2: score-fallback consistency of the old resolver.
-/

theorem synthGames_map_name (n : Nat) :
    (synthGames n).map (·.map_name) = List.replicate n "Unknown Map".toList := by
  unfold synthGames
  by_cases h : 0 < n
  · simp [h, List.map_map, Function.comp_def, List.eq_replicate_iff]
  · simp at h
    simp [h]

theorem synthGames_map_number (n : Nat) :
    (synthGames n).map (·.game_number) = (List.range n).map (fun (k : Nat) => (k : Int) + 1) := by
  unfold synthGames
  by_cases h : 0 < n
  · simp [h, List.map_map, Function.comp_def]
  · simp at h
    simp [h]

theorem synthGames_length (n : Nat) : (synthGames n).length = n := by
  unfold synthGames
  by_cases h : 0 < n
  · rw [if_pos h, List.length_map, List.length_range]
  · rw [if_neg h]
    have h0 : n = 0 := by omega
    simp [h0]

theorem synthGames_winner_none (n : Nat) :
    ∀ g ∈ synthGames n, g.winner = none := by
  intro g hg
  unfold synthGames at hg
  by_cases h : 0 < n
  · rw [if_pos h] at hg
    obtain ⟨k, _, rfl⟩ := List.mem_map.mp hg
    rfl
  · rw [if_neg h] at hg
    simp at hg

theorem synthGames_countP_won (n : Nat) (t : Team) :
    (synthGames n).countP (fun g => gameWonBy g t) = 0 := by
  rw [List.countP_eq_zero]
  intro g hg
  have := synthGames_winner_none n g hg
  simp [gameWonBy, this]

theorem synthGames_eq_nil_iff (n : Nat) : synthGames n = [] ↔ n = 0 := by
  constructor
  · intro h
    have := synthGames_length n
    rw [h] at this
    simpa using this.symm
  · intro h
    subst h
    rfl

/-- The old `_create_match_from_wikitext` on a block with no detailed maps
and both aggregate scores present, in closed form. -/
theorem old_create_match_core_fallback (team1 team2 : Team) (match_id : Str)
    (s1 s2 bo : Nat) (d : Option Str) :
    Old.create_match_core match_id team1 team2 [] (some s1) (some s2) bo d =
      { match_id, team1, team2
        winner := if s2 < s1 then some team1 else if s1 < s2 then some team2 else none
        best_of := if bo = 0 then 3 else bo
        status := .completed, match_date := d
        games := synthGames (s1 + s2)
        stage := some (extract_stage match_id)
        team1_score := s1, team2_score := s2 } := by
  have hgames : Old.extract_games_core [] (some s1) (some s2) team1 team2 =
      synthGames (s1 + s2) := by
    simp [Old.extract_games_core]
  unfold Old.create_match_core
  rw [hgames]
  by_cases hn : s1 + s2 = 0
  · have hs1 : s1 = 0 := by omega
    have hs2 : s2 = 0 := by omega
    subst hs1; subst hs2
    simp [synthGames]
  · have hne : synthGames (s1 + s2) ≠ [] := fun h => hn ((synthGames_eq_nil_iff _).mp h)
    have hemp : (synthGames (s1 + s2)).isEmpty = false := by
      simpa [List.isEmpty_iff] using hne
    simp only [hemp, Bool.false_eq_true, if_false, synthGames_countP_won,
      lt_self_iff_false, Bool.and_self, if_true]
    split_ifs <;> simp_all

/-- C2 (confirmed): when the detailed tier finds zero per-map sub-templates
and both opponent templates carry integer aggregate scores `s1`, `s2`, the
old resolver synthesizes exactly `s1 + s2` placeholder games numbered
`1..s1+s2` with map name "Unknown Map", sets `team1_score = s1`,
`team2_score = s2`, and sets the match winner to team1 / team2 / nobody
according to the score comparison; the second conjunct restates this for the
raw-content function under the hypothesis that the two regex scans behave as
described. -/
theorem C2_score_fallback_consistency :
    (∀ (team1 team2 : Team) (match_id : Str) (s1 s2 : Nat) (bo : Nat) (d : Option Str),
      (Old.create_match_core match_id team1 team2 [] (some s1) (some s2) bo d).team1_score = s1 ∧
      (Old.create_match_core match_id team1 team2 [] (some s1) (some s2) bo d).team2_score = s2 ∧
      (Old.create_match_core match_id team1 team2 [] (some s1) (some s2) bo d).games.length
          = s1 + s2 ∧
      (Old.create_match_core match_id team1 team2 [] (some s1) (some s2) bo d).games.map
          (·.map_name) = List.replicate (s1 + s2) "Unknown Map".toList ∧
      (Old.create_match_core match_id team1 team2 [] (some s1) (some s2) bo d).games.map
          (·.game_number) = (List.range (s1 + s2)).map (fun (k : Nat) => (k : Int) + 1) ∧
      (Old.create_match_core match_id team1 team2 [] (some s1) (some s2) bo d).winner =
        (if s2 < s1 then some team1 else if s1 < s2 then some team2 else none)) ∧
    (∀ (team1 team2 : Team) (match_id : Str) (mc : Str) (s1 s2 : Nat),
      findMapEntries mc = [] → searchScore scoreLit1 mc = some s1 →
      searchScore scoreLit2 mc = some s2 →
      (Old.create_match_from_wikitext match_id team1 team2 mc).team1_score = s1 ∧
      (Old.create_match_from_wikitext match_id team1 team2 mc).team2_score = s2 ∧
      (Old.create_match_from_wikitext match_id team1 team2 mc).games.length = s1 + s2 ∧
      (Old.create_match_from_wikitext match_id team1 team2 mc).winner =
        (if s2 < s1 then some team1 else if s1 < s2 then some team2 else none)) := by
  constructor
  · intro team1 team2 match_id s1 s2 bo d
    rw [old_create_match_core_fallback]
    exact ⟨rfl, rfl, synthGames_length _, synthGames_map_name _, synthGames_map_number _, rfl⟩
  · intro team1 team2 match_id mc s1 s2 hmap hs1 hs2
    unfold Old.create_match_from_wikitext
    rw [hmap, hs1, hs2, old_create_match_core_fallback]
    exact ⟨rfl, rfl, synthGames_length _, rfl⟩

/-- A match block carrying only aggregate scores 2 and 1 (no per-map
sub-templates). -/
def scoreBlock : Str :=
  ("M1=\x7b\x7bMatch|opponent1=\x7b\x7b2Opponent|p1=Alice|p2=Bob|score=2\x7d\x7d" ++
   "|opponent2=\x7b\x7b2Opponent|p1=Cara|p2=Dan|score=1\x7d\x7d\x7d\x7d").toList

/-- C2 (witness): the score-fallback conclusion at the concrete block with
aggregate scores `"2"` and `"1"`: winner team1, scores 2 and 1, three
synthesized games. -/
theorem C2_witness :
    (Old.create_match_from_wikitext "M1".toList tAB tCD scoreBlock).team1_score = 2 ∧
    (Old.create_match_from_wikitext "M1".toList tAB tCD scoreBlock).team2_score = 1 ∧
    (Old.create_match_from_wikitext "M1".toList tAB tCD scoreBlock).games.length = 3 ∧
    (Old.create_match_from_wikitext "M1".toList tAB tCD scoreBlock).winner = some tAB := by
  have h := C2_score_fallback_consistency.2 tAB tCD "M1".toList scoreBlock 2 1
    (by decide) (by decide) (by decide)
  exact ⟨h.1, h.2.1, h.2.2.1, by simpa using h.2.2.2⟩

/-!
Claim C6: winner-indicator rules of the detailed game tier.
-/

/-- C6 (amended, proved part): the detailed tier is the `filterMap` of the
per-entry resolver over the findall triples, and the resolver excludes
`"skip"` and `"0"`, includes a token parsing as integer 1 (resp. 2) with
winner team1 (resp. team2) — including tokens other than the literal `"1"` /
`"2"`, such as `"01"`, `"+1"` or the underscore-grouped `"0_1"` — and
excludes every token that parses to neither 1
nor 2 or fails to parse, as well as entries whose game-number field fails
integer parsing.  Exclusion (not `None`-insertion) is what makes gaps in
`game_number` possible. -/
theorem C6_amended_winner_token_rules :
    (∀ (team1 team2 : Team) (entries : List (Str × Str × Str)) (s1 s2 : Option Nat),
      entries ≠ [] →
      Old.extract_games_core entries s1 s2 team1 team2 =
        entries.filterMap (resolveDetailedGame team1 team2)) ∧
    (∀ (team1 team2 : Team) (d m : Str),
      resolveDetailedGame team1 team2 (d, m, "skip".toList) = none) ∧
    (∀ (team1 team2 : Team) (d m : Str),
      resolveDetailedGame team1 team2 (d, m, "0".toList) = none) ∧
    (∀ (team1 team2 : Team) (d m w : Str) (n : Int),
      pyInt d = some n → pyInt w = some 1 →
      resolveDetailedGame team1 team2 (d, m, w) =
        some { game_number := n, map_name := m, winner := some team1
               duration_seconds := none }) ∧
    (∀ (team1 team2 : Team) (d m w : Str) (n : Int),
      pyInt d = some n → pyInt w = some 2 →
      resolveDetailedGame team1 team2 (d, m, w) =
        some { game_number := n, map_name := m, winner := some team2
               duration_seconds := none }) ∧
    (∀ (team1 team2 : Team) (d m w : Str),
      pyInt w ≠ some 1 → pyInt w ≠ some 2 →
      resolveDetailedGame team1 team2 (d, m, w) = none) ∧
    (∀ (team1 team2 : Team) (d m w : Str),
      pyInt d = none → resolveDetailedGame team1 team2 (d, m, w) = none) := by
  refine ⟨?_, ?_, ?_, ?_, ?_, ?_, ?_⟩
  · intro team1 team2 entries s1 s2 h
    unfold Old.extract_games_core
    rw [if_pos]
    simp [List.isEmpty_iff, h]
  · intro team1 team2 d m
    unfold resolveDetailedGame
    cases hd : pyInt d <;> simp [hd]
  · intro team1 team2 d m
    unfold resolveDetailedGame
    cases hd : pyInt d <;>
      simp [hd, show pyInt "0".toList = some 0 from by decide]
  · intro team1 team2 d m w n hd hw
    have hskip : w ≠ "skip".toList := by
      intro h; rw [h] at hw; exact absurd hw (by decide)
    have hzero : w ≠ "0".toList := by
      intro h; rw [h] at hw; exact absurd hw (by decide)
    simp only [resolveDetailedGame, hd, hskip, hzero, hw]
    simp [hskip, hzero]
  · intro team1 team2 d m w n hd hw
    have hskip : w ≠ "skip".toList := by
      intro h; rw [h] at hw; exact absurd hw (by decide)
    have hzero : w ≠ "0".toList := by
      intro h; rw [h] at hw; exact absurd hw (by decide)
    simp only [resolveDetailedGame, hd, hskip, hzero, hw]
    simp [hskip, hzero]
  · intro team1 team2 d m w h1 h2
    cases hd : pyInt d with
    | none => simp [resolveDetailedGame, hd]
    | some nd =>
        by_cases hskip : w = "skip".toList
        · simp [resolveDetailedGame, hd, hskip]
        · by_cases hzero : w = "0".toList
          · simp [resolveDetailedGame, hd, hskip, hzero]
          · cases hw : pyInt w with
            | none => simp [resolveDetailedGame, hd, hskip, hzero, hw]
            | some nw =>
                have e1 : ¬ nw = 1 := fun e => h1 (by rw [hw, e])
                have e2 : ¬ nw = 2 := fun e => h2 (by rw [hw, e])
                simp [resolveDetailedGame, hd, hskip, hzero, hw, e1, e2]
  · intro team1 team2 d m w hd
    simp [resolveDetailedGame, hd]

/-- C6 (witness): the amended rules applied at concrete entries — the token
`"1"` on game 2 of map Echo yields a game won by team1, and the
underscore-grouped token `"0_1"` (Python `int("0_1")` is 1) likewise yields
a game won by team1. -/
theorem C6_witness :
    resolveDetailedGame tAB tCD ("2".toList, "Echo".toList, "1".toList) =
      some { game_number := 2, map_name := "Echo".toList, winner := some tAB
             duration_seconds := none } ∧
    resolveDetailedGame tAB tCD ("3".toList, "Echo".toList, "0_1".toList) =
      some { game_number := 3, map_name := "Echo".toList, winner := some tAB
             duration_seconds := none } :=
  ⟨C6_amended_winner_token_rules.2.2.2.1 tAB tCD "2".toList "Echo".toList "1".toList 2
     (by decide) (by decide),
   C6_amended_winner_token_rules.2.2.2.1 tAB tCD "3".toList "Echo".toList "0_1".toList 3
     (by decide) (by decide)⟩

/-- C6 (counterexample): the token `"01"` is not one of
`"skip"`/`"0"`/`"1"`/`"2"`, yet the resolver does not exclude it — `int("01")`
is 1, so the game is included with winner team1, contradicting the claim that
any other token is excluded as invalid. -/
theorem C6_counterexample_token_01_included :
    resolveDetailedGame tAB tCD ("1".toList, "Echo".toList, "01".toList) =
      some { game_number := 1, map_name := "Echo".toList, winner := some tAB
             duration_seconds := none } ∧
    "01".toList ∉ ["skip".toList, "0".toList, "1".toList, "2".toList] := by
  refine ⟨?_, ?_⟩ <;> decide

/-!
Claim C10: the mutating `Match.score` property.
-/

/-- C10 (amended, proved part): when both stored scores are zero and games
exist, reading `score` returns the per-team game-win counts as `"a-b"` and
writes them into `team1_score` / `team2_score`; when a stored score is
nonzero, reading `score` returns `"team1_score-team2_score"` and leaves the
match unchanged; and the write makes a later read take the direct-score
branch precisely when at least one game had a determinable winner. -/
theorem C10_amended_score_mutation (m : Match) :
    (m.team1_score = 0 → m.team2_score = 0 → m.games ≠ [] →
      Match.score m =
        (Nat.toDigits 10 (m.games.countP (fun g => gameWonBy g m.team1)) ++ '-' ::
           Nat.toDigits 10 (m.games.countP (fun g => gameWonBy g m.team2)),
         { m with
           team1_score := m.games.countP (fun g => gameWonBy g m.team1)
           team2_score := m.games.countP (fun g => gameWonBy g m.team2) })) ∧
    (¬(m.team1_score = 0 ∧ m.team2_score = 0) →
      Match.score m =
        (Nat.toDigits 10 m.team1_score ++ '-' :: Nat.toDigits 10 m.team2_score, m)) ∧
    (m.team1_score = 0 → m.team2_score = 0 → m.games ≠ [] →
      0 < m.games.countP (fun g => gameWonBy g m.team1) +
            m.games.countP (fun g => gameWonBy g m.team2) →
      0 < (Match.score m).2.team1_score ∨ 0 < (Match.score m).2.team2_score) := by
  have main : m.team1_score = 0 → m.team2_score = 0 → m.games ≠ [] →
      Match.score m =
        (Nat.toDigits 10 (m.games.countP (fun g => gameWonBy g m.team1)) ++ '-' ::
           Nat.toDigits 10 (m.games.countP (fun g => gameWonBy g m.team2)),
         { m with
           team1_score := m.games.countP (fun g => gameWonBy g m.team1)
           team2_score := m.games.countP (fun g => gameWonBy g m.team2) }) := by
    intro h1 h2 hg
    unfold Match.score
    rw [h1, h2]
    simp [List.isEmpty_iff, hg]
  refine ⟨main, ?_, ?_⟩
  · intro h
    unfold Match.score
    rw [if_pos]
    rcases Nat.eq_zero_or_pos m.team1_score with h1 | h1
    · rcases Nat.eq_zero_or_pos m.team2_score with h2 | h2
      · exact absurd ⟨h1, h2⟩ h
      · simp [h2]
    · simp [h1]
  · intro h1 h2 hg hpos
    rw [main h1 h2 hg]
    dsimp only
    omega

/-- C10 (witness): the amended property at a concrete match with one decided
game: reading `score` yields `"1-0"` and writes the counts. -/
theorem C10_witness :
    Match.score
        { match_id := "W".toList, team1 := tAB, team2 := tCD
          games := [{ game_number := 1, map_name := "Echo".toList, winner := some tAB }] } =
      ("1-0".toList,
       { match_id := "W".toList, team1 := tAB, team2 := tCD
         games := [{ game_number := 1, map_name := "Echo".toList, winner := some tAB }]
         team1_score := 1, team2_score := 0 }) := by
  have h := (C10_amended_score_mutation
    { match_id := "W".toList, team1 := tAB, team2 := tCD
      games := [{ game_number := 1, map_name := "Echo".toList, winner := some tAB }] }).1
    rfl rfl (by decide)
  rw [h]
  decide

/-- C10 (counterexample): for a match whose only game has no determinable
winner, reading `score` writes the counts 0 and 0, so the later evaluation
does **not** take the direct-score branch (both stored scores are still
zero while the games list is nonempty), contradicting the claim's
parenthetical. -/
theorem C10_counterexample_zero_counts_no_direct_branch :
    (Match.score
        { match_id := "W".toList, team1 := tAB, team2 := tCD
          games := [{ game_number := 1, map_name := "Echo".toList, winner := none }] }).1 =
      "0-0".toList ∧
    (Match.score
        { match_id := "W".toList, team1 := tAB, team2 := tCD
          games := [{ game_number := 1, map_name := "Echo".toList, winner := none }] }).2 =
      { match_id := "W".toList, team1 := tAB, team2 := tCD
        games := [{ game_number := 1, map_name := "Echo".toList, winner := none }] } ∧
    ¬(0 < (Match.score
        { match_id := "W".toList, team1 := tAB, team2 := tCD
          games := [{ game_number := 1, map_name := "Echo".toList, winner := none }] }).2.team1_score ∨
      0 < (Match.score
        { match_id := "W".toList, team1 := tAB, team2 := tCD
          games := [{ game_number := 1, map_name := "Echo".toList, winner := none }] }).2.team2_score) := by
  refine ⟨?_, ?_, ?_⟩ <;> decide

/-!
Specification lemmas for `strFind` and the brace-counting loop.
-/

theorem strFindLoop_some_spec (hay pat : Str) :
    ∀ (fuel i j : Nat), strFindLoop hay pat i fuel = some j →
      i ≤ j ∧ occursAt hay pat j ∧ ∀ k, i ≤ k → k < j → ¬ occursAt hay pat k := by
  intro fuel
  induction fuel with
  | zero => intro i j h; simp [strFindLoop] at h
  | succ n ih =>
      intro i j h
      unfold strFindLoop at h
      by_cases hp : pat.isPrefixOf (hay.drop i) = true
      · rw [if_pos hp] at h
        have hij : i = j := by injection h
        subst hij
        exact ⟨le_rfl, hp, fun k hk1 hk2 => absurd hk1 (by omega)⟩
      · rw [if_neg hp] at h
        obtain ⟨h1, h2, h3⟩ := ih (i + 1) j h
        refine ⟨by omega, h2, ?_⟩
        intro k hk1 hk2
        rcases eq_or_lt_of_le hk1 with rfl | hk
        · exact hp
        · exact h3 k (by omega) hk2

theorem strFindLoop_none_spec (hay pat : Str) :
    ∀ (fuel i : Nat), strFindLoop hay pat i fuel = none →
      ∀ k, i ≤ k → k < i + fuel → ¬ occursAt hay pat k := by
  intro fuel
  induction fuel with
  | zero => intro i _ k hk1 hk2; omega
  | succ n ih =>
      intro i h k hk1 hk2
      unfold strFindLoop at h
      by_cases hp : pat.isPrefixOf (hay.drop i) = true
      · rw [if_pos hp] at h; exact absurd h (by simp)
      · rw [if_neg hp] at h
        rcases eq_or_lt_of_le hk1 with rfl | hk
        · exact hp
        · exact ih (i + 1) h k (by omega) (by omega)

theorem occursAt_false_of_gt_length (hay pat : Str) (k : Nat)
    (hpat : pat ≠ []) (hk : hay.length < k) : ¬ occursAt hay pat k := by
  unfold occursAt
  rw [List.drop_eq_nil_of_le (le_of_lt hk)]
  cases pat with
  | nil => exact absurd rfl hpat
  | cons a l => simp [List.isPrefixOf]

theorem strFind_some_spec (hay pat : Str) (start j : Nat)
    (h : strFind hay pat start = some j) :
    start ≤ j ∧ occursAt hay pat j ∧ ∀ k, start ≤ k → k < j → ¬ occursAt hay pat k := by
  unfold strFind at h
  by_cases hs : start ≤ hay.length
  · rw [if_pos hs] at h
    exact strFindLoop_some_spec hay pat _ start j h
  · rw [if_neg hs] at h
    exact absurd h (by simp)

theorem strFind_none_spec (hay pat : Str) (start : Nat) (hpat : pat ≠ [])
    (h : strFind hay pat start = none) :
    ∀ k, start ≤ k → ¬ occursAt hay pat k := by
  unfold strFind at h
  intro k hk
  by_cases hs : start ≤ hay.length
  · rw [if_pos hs] at h
    by_cases hlen : k ≤ hay.length
    · exact strFindLoop_none_spec hay pat _ start h k hk (by omega)
    · exact occursAt_false_of_gt_length hay pat k hpat (by omega)
  · exact occursAt_false_of_gt_length hay pat k hpat (by omega)

/-- Net brace count of a string: opens minus closes, as an integer. -/
def netBraces (s : Str) : Int := (s.count '{' : Int) - (s.count '}' : Int)

theorem netBraces_cons (ch : Char) (s : Str) :
    netBraces (ch :: s) =
      (if ch = '{' then 1 else 0) - (if ch = '}' then 1 else 0) + netBraces s := by
  unfold netBraces
  rw [List.count_cons, List.count_cons]
  split_ifs with h1 h2 <;> simp_all <;> omega

theorem netBraces_cons_open (s : Str) : netBraces ('{' :: s) = 1 + netBraces s := by
  rw [netBraces_cons]
  simp [show ('{' : Char) ≠ '}' from by decide]

theorem netBraces_cons_close (s : Str) : netBraces ('}' :: s) = -1 + netBraces s := by
  rw [netBraces_cons]
  simp [show ('}' : Char) ≠ '{' from by decide]

theorem netBraces_cons_other (ch : Char) (s : Str) (h1 : ch ≠ '{') (h2 : ch ≠ '}') :
    netBraces (ch :: s) = netBraces s := by
  rw [netBraces_cons]
  simp [h1, h2]

theorem braceScan_spec : ∀ (cs : Str) (c : Int) (i e : Nat),
    braceScan cs c i = some e →
    ∃ k, 0 < k ∧ k ≤ cs.length ∧ e = i + k ∧ c + netBraces (cs.take k) = 0 ∧
      ∃ pre, cs.take k = pre ++ ['}'] := by
  intro cs
  induction cs with
  | nil => intro c i e h; simp [braceScan] at h
  | cons ch rest ih =>
      intro c i e h
      unfold braceScan at h
      by_cases h1 : (ch == '{') = true
      · rw [if_pos h1] at h
        obtain ⟨k', hk1, hk2, hk3, hk4, pre', hk5⟩ := ih (c + 1) (i + 1) e h
        have hch : ch = '{' := by simpa using h1
        subst hch
        have htake : (('{' : Char) :: rest).take (k' + 1) = '{' :: rest.take k' := rfl
        refine ⟨k' + 1, by omega, by simp; omega, by omega, ?_, '{' :: pre', ?_⟩
        · rw [htake, netBraces_cons_open]
          omega
        · rw [htake, hk5]
          rfl
      · rw [if_neg h1] at h
        by_cases h2 : (ch == '}') = true
        · rw [if_pos h2] at h
          have hch : ch = '}' := by simpa using h2
          subst hch
          have htake1 : (('}' : Char) :: rest).take 1 = ['}'] := rfl
          by_cases h3 : c - 1 = 0
          · rw [if_pos h3] at h
            have he : e = i + 1 := by injection h with h4; omega
            refine ⟨1, by omega, by simp, he, ?_, [], ?_⟩
            · rw [htake1]
              have : netBraces ['}'] = -1 := by decide
              omega
            · rw [htake1]
              rfl
          · rw [if_neg h3] at h
            obtain ⟨k', hk1, hk2, hk3, hk4, pre', hk5⟩ := ih (c - 1) (i + 1) e h
            have htake : (('}' : Char) :: rest).take (k' + 1) = '}' :: rest.take k' := rfl
            refine ⟨k' + 1, by omega, by simp; omega, by omega, ?_, '}' :: pre', ?_⟩
            · rw [htake, netBraces_cons_close]
              omega
            · rw [htake, hk5]
              rfl
        · rw [if_neg h2] at h
          obtain ⟨k', hk1, hk2, hk3, hk4, pre', hk5⟩ := ih c (i + 1) e h
          have hco : ch ≠ '{' := by simpa using h1
          have hcc : ch ≠ '}' := by simpa using h2
          have htake : (ch :: rest).take (k' + 1) = ch :: rest.take k' := rfl
          refine ⟨k' + 1, by omega, by simp; omega, by omega, ?_, ch :: pre', ?_⟩
          · rw [htake, netBraces_cons_other ch _ hco hcc]
            omega
          · rw [htake, hk5]
            rfl

/-- Any slice the shared brace-delimiting tail returns is empty or balanced
(equal numbers of opening and closing braces) and ends at a closing brace. -/
theorem extractFromPos_balanced (w : Str) (s : Nat) :
    extractFromPos w s = [] ∨
      ((extractFromPos w s).count '{' = (extractFromPos w s).count '}' ∧
       ∃ pre, extractFromPos w s = pre ++ ['}']) := by
  unfold extractFromPos
  cases hb : braceScan (w.drop s) 0 s with
  | none => left; rfl
  | some e =>
      obtain ⟨k, hkpos, hklen, he, hnet, pre, hpre⟩ := braceScan_spec _ _ _ _ hb
      right
      show ((w.drop s).take (e - s)).count '{' = ((w.drop s).take (e - s)).count '}' ∧
        ∃ pre, (w.drop s).take (e - s) = pre ++ ['}']
      have hek : e - s = k := by omega
      rw [hek]
      refine ⟨?_, pre, hpre⟩
      have h0 : (0 : Int) + netBraces ((w.drop s).take k) = 0 := hnet
      unfold netBraces at h0
      omega

/-!
Claim C8: brace balancing of the block extractors.
-/

/-- C8 (confirmed): whenever either block extractor returns a slice, the
slice is empty (the braces never balanced) or contains exactly as many
closing braces as opening braces and ends at the closing brace where the
nesting counter first returned to zero; and when the marker is absent in
both variants the old extractor returns NOT_FOUND.  It never returns a
nonempty unbalanced slice. -/
theorem C8_brace_balancing :
    (∀ (w id : Str) (pos : Nat) (c : Str),
      Old.extract_match_content_at_position w id pos = some c →
      c = [] ∨ (c.count '{' = c.count '}' ∧ ∃ pre, c = pre ++ ['}'])) ∧
    (∀ (w id : Str) (c : Str),
      Tools.extract_match_content w id = some c →
      c = [] ∨ (c.count '{' = c.count '}' ∧ ∃ pre, c = pre ++ ['}'])) ∧
    (∀ (w id : Str) (pos : Nat),
      strFind w (id ++ "=\x7b\x7bMatch".toList) pos = none →
      strFind w ('|' :: (id ++ "=\x7b\x7bMatch".toList)) pos = none →
      Old.extract_match_content_at_position w id pos = none) := by
  refine ⟨?_, ?_, ?_⟩
  · intro w id pos c h
    simp only [Old.extract_match_content_at_position] at h
    cases h1 : strFind w (id ++ "=\x7b\x7bMatch".toList) pos with
    | some p =>
        rw [h1] at h
        have : c = extractFromPos w p := by injection h with h'; exact h'.symm
        rw [this]
        exact extractFromPos_balanced w p
    | none =>
        rw [h1] at h
        cases h2 : strFind w ('|' :: (id ++ "=\x7b\x7bMatch".toList)) pos with
        | some p =>
            rw [h2] at h
            have : c = extractFromPos w p := by injection h with h'; exact h'.symm
            rw [this]
            exact extractFromPos_balanced w p
        | none => rw [h2] at h; exact absurd h (by simp)
  · intro w id c h
    simp only [Tools.extract_match_content] at h
    cases h1 : strFind w (id ++ "=\x7b\x7bMatch".toList) 0 with
    | some p =>
        rw [h1] at h
        have : c = extractFromPos w p := by injection h with h'; exact h'.symm
        rw [this]
        exact extractFromPos_balanced w p
    | none => rw [h1] at h; exact absurd h (by simp)
  · intro w id pos h1 h2
    simp only [Old.extract_match_content_at_position, h1, h2]

set_option maxRecDepth 40000 in
/-- C8 (witness): the balance conclusion at the first block of the two-`M1`
page, a block with 3 nested opens at its deepest point and 5 open braces in
total. -/
theorem C8_witness :
    ("M1=\x7b\x7bMatch|bestof=3|opponent1=\x7b\x7b2Opponent|p1=Alice|p2=Bob\x7d\x7d|opponent2=\x7b\x7b2Opponent|p1=Cara|p2=Dan\x7d\x7d\x7d\x7d".toList : Str) = [] ∨
    (("M1=\x7b\x7bMatch|bestof=3|opponent1=\x7b\x7b2Opponent|p1=Alice|p2=Bob\x7d\x7d|opponent2=\x7b\x7b2Opponent|p1=Cara|p2=Dan\x7d\x7d\x7d\x7d".toList : Str).count '{' =
       ("M1=\x7b\x7bMatch|bestof=3|opponent1=\x7b\x7b2Opponent|p1=Alice|p2=Bob\x7d\x7d|opponent2=\x7b\x7b2Opponent|p1=Cara|p2=Dan\x7d\x7d\x7d\x7d".toList : Str).count '}' ∧
     ∃ pre, ("M1=\x7b\x7bMatch|bestof=3|opponent1=\x7b\x7b2Opponent|p1=Alice|p2=Bob\x7d\x7d|opponent2=\x7b\x7b2Opponent|p1=Cara|p2=Dan\x7d\x7d\x7d\x7d".toList : Str) = pre ++ ['}']) :=
  C8_brace_balancing.1 pageTwoM1 "M1".toList 1 _ (by decide)

/-!
Claim C7: position-hinted marker location.
-/

set_option maxRecDepth 40000 in
/-- C7 (confirmed): when the old block extractor succeeds from a search
position, the returned slice starts at an occurrence — at or after that
position — of the bare marker or of the pipe-prefixed marker, and that
occurrence is the closest one to the search position (the bare variant is
consulted first, the piped variant only when the bare marker does not occur
at all at or after the position); concretely, on a page with two blocks
sharing the marker `M1`, the extractor called at the second occurrence's
position returns the second block, not the first. -/
theorem C7_position_hint :
    (∀ (w id : Str) (pos : Nat) (c : Str),
      Old.extract_match_content_at_position w id pos = some c →
      ∃ i, pos ≤ i ∧ c = extractFromPos w i ∧
        ((occursAt w (id ++ "=\x7b\x7bMatch".toList) i ∧
          ∀ k, pos ≤ k → k < i → ¬ occursAt w (id ++ "=\x7b\x7bMatch".toList) k) ∨
         ((∀ k, pos ≤ k → ¬ occursAt w (id ++ "=\x7b\x7bMatch".toList) k) ∧
          occursAt w ('|' :: (id ++ "=\x7b\x7bMatch".toList)) i ∧
          ∀ k, pos ≤ k → k < i → ¬ occursAt w ('|' :: (id ++ "=\x7b\x7bMatch".toList)) k))) ∧
    (Old.extract_match_content_at_position pageTwoM1 "M1".toList 1 =
        some ("M1=\x7b\x7bMatch|bestof=3|opponent1=\x7b\x7b2Opponent|p1=Alice|p2=Bob\x7d\x7d|opponent2=\x7b\x7b2Opponent|p1=Cara|p2=Dan\x7d\x7d\x7d\x7d".toList) ∧
     Old.extract_match_content_at_position pageTwoM1 "M1".toList 103 =
        some ("M1=\x7b\x7bMatch|bestof=3|opponent1=\x7b\x7b2Opponent|p1=Eve|p2=Finn\x7d\x7d|opponent2=\x7b\x7b2Opponent|p1=Gus|p2=Hal\x7d\x7d\x7d\x7d".toList) ∧
     ("M1=\x7b\x7bMatch|bestof=3|opponent1=\x7b\x7b2Opponent|p1=Alice|p2=Bob\x7d\x7d|opponent2=\x7b\x7b2Opponent|p1=Cara|p2=Dan\x7d\x7d\x7d\x7d".toList : Str) ≠
       ("M1=\x7b\x7bMatch|bestof=3|opponent1=\x7b\x7b2Opponent|p1=Eve|p2=Finn\x7d\x7d|opponent2=\x7b\x7b2Opponent|p1=Gus|p2=Hal\x7d\x7d\x7d\x7d".toList : Str)) := by
  constructor
  · intro w id pos c h
    have hm1 : id ++ "=\x7b\x7bMatch".toList ≠ [] := by
      intro he
      exact absurd (List.append_eq_nil.mp he).2 (by decide)
    simp only [Old.extract_match_content_at_position] at h
    cases h1 : strFind w (id ++ "=\x7b\x7bMatch".toList) pos with
    | some p =>
        rw [h1] at h
        have hc : c = extractFromPos w p := by injection h with h'; exact h'.symm
        obtain ⟨hp1, hp2, hp3⟩ := strFind_some_spec w _ pos p h1
        exact ⟨p, hp1, hc, Or.inl ⟨hp2, hp3⟩⟩
    | none =>
        rw [h1] at h
        cases h2 : strFind w ('|' :: (id ++ "=\x7b\x7bMatch".toList)) pos with
        | some p =>
            rw [h2] at h
            have hc : c = extractFromPos w p := by injection h with h'; exact h'.symm
            obtain ⟨hp1, hp2, hp3⟩ := strFind_some_spec w _ pos p h2
            exact ⟨p, hp1, hc,
              Or.inr ⟨strFind_none_spec w _ pos hm1 h1, hp2, hp3⟩⟩
        | none => rw [h2] at h; exact absurd h (by simp)
  · refine ⟨?_, ?_, ?_⟩ <;> decide

set_option maxRecDepth 40000 in
/-- C7 (witness): the location property at the concrete page and search
position 103 (the second `M1` occurrence). -/
theorem C7_witness :
    ∃ i, 103 ≤ i ∧
      ("M1=\x7b\x7bMatch|bestof=3|opponent1=\x7b\x7b2Opponent|p1=Eve|p2=Finn\x7d\x7d|opponent2=\x7b\x7b2Opponent|p1=Gus|p2=Hal\x7d\x7d\x7d\x7d".toList : Str) = extractFromPos pageTwoM1 i ∧
      ((occursAt pageTwoM1 ("M1".toList ++ "=\x7b\x7bMatch".toList) i ∧
        ∀ k, 103 ≤ k → k < i → ¬ occursAt pageTwoM1 ("M1".toList ++ "=\x7b\x7bMatch".toList) k) ∨
       ((∀ k, 103 ≤ k → ¬ occursAt pageTwoM1 ("M1".toList ++ "=\x7b\x7bMatch".toList) k) ∧
        occursAt pageTwoM1 ('|' :: ("M1".toList ++ "=\x7b\x7bMatch".toList)) i ∧
        ∀ k, 103 ≤ k → k < i → ¬ occursAt pageTwoM1 ('|' :: ("M1".toList ++ "=\x7b\x7bMatch".toList)) k)) :=
  C7_position_hint.1 pageTwoM1 "M1".toList 103 _ (by decide)

/-!
Structural lemmas about the match builders, used by claims C1, C5 and C9.
-/

theorem old_create_match_core_fields (match_id : Str) (team1 team2 : Team)
    (mm : List (Str × Str × Str)) (s1 s2 : Option Nat) (bo : Nat) (d : Option Str) :
    (Old.create_match_core match_id team1 team2 mm s1 s2 bo d).match_id = match_id ∧
    (Old.create_match_core match_id team1 team2 mm s1 s2 bo d).team1 = team1 ∧
    (Old.create_match_core match_id team1 team2 mm s1 s2 bo d).team2 = team2 ∧
    (Old.create_match_core match_id team1 team2 mm s1 s2 bo d).games =
      Old.extract_games_core mm s1 s2 team1 team2 := by
  simp only [Old.create_match_core]
  refine ⟨?_, ?_, ?_, ?_⟩ <;> (repeat' split) <;> rfl

theorem old_create_match_fields (match_id : Str) (team1 team2 : Team) (mc : Str) :
    (Old.create_match_from_wikitext match_id team1 team2 mc).match_id = match_id ∧
    (Old.create_match_from_wikitext match_id team1 team2 mc).team1 = team1 ∧
    (Old.create_match_from_wikitext match_id team1 team2 mc).team2 = team2 := by
  unfold Old.create_match_from_wikitext
  obtain ⟨h1, h2, h3, _⟩ := old_create_match_core_fields match_id team1 team2 _ _ _ _ _
  exact ⟨h1, h2, h3⟩

theorem resolveDetailedGame_winner (team1 team2 : Team) (e : Str × Str × Str) (g : Game)
    (h : resolveDetailedGame team1 team2 e = some g) :
    g.winner = some team1 ∨ g.winner = some team2 := by
  obtain ⟨d, m, w⟩ := e
  simp only [resolveDetailedGame] at h
  split at h
  · exact absurd h (by simp)
  · split at h
    · exact absurd h (by simp)
    · split at h
      · exact absurd h (by simp)
      · split at h
        · exact absurd h (by simp)
        · split at h
          · left; injection h with h'; rw [← h']
          · split at h
            · right; injection h with h'; rw [← h']
            · exact absurd h (by simp)

theorem old_extract_games_core_winners (mm : List (Str × Str × Str))
    (s1 s2 : Option Nat) (team1 team2 : Team) :
    ∀ g ∈ Old.extract_games_core mm s1 s2 team1 team2,
      g.winner = none ∨ g.winner = some team1 ∨ g.winner = some team2 := by
  intro g hg
  unfold Old.extract_games_core at hg
  by_cases hmm : mm.isEmpty
  · rw [hmm] at hg
    simp only [Bool.not_true, Bool.false_eq_true, if_false] at hg
    cases s1 with
    | none => simp at hg
    | some a =>
        cases s2 with
        | none => simp at hg
        | some b => exact Or.inl (synthGames_winner_none _ g hg)
  · rw [Bool.not_eq_true] at hmm
    rw [hmm] at hg
    simp only [Bool.not_false, if_true] at hg
    obtain ⟨e, _, he⟩ := List.mem_filterMap.mp hg
    rcases resolveDetailedGame_winner team1 team2 e g he with h | h
    · exact Or.inr (Or.inl h)
    · exact Or.inr (Or.inr h)

theorem old_create_match_core_selfContained (match_id : Str) (team1 team2 : Team)
    (mm : List (Str × Str × Str)) (s1 s2 : Option Nat) (bo : Nat) (d : Option Str) :
    (Old.create_match_core match_id team1 team2 mm s1 s2 bo d).selfContained := by
  obtain ⟨_, ht1, ht2, hg⟩ := old_create_match_core_fields match_id team1 team2 mm s1 s2 bo d
  unfold Match.selfContained
  rw [ht1, ht2, hg]
  constructor
  · simp only [Old.create_match_core]
    (repeat' split) <;> simp
  · intro g hgm
    exact old_extract_games_core_winners mm s1 s2 team1 team2 g hgm

theorem old_create_match_selfContained (match_id : Str) (team1 team2 : Team) (mc : Str) :
    (Old.create_match_from_wikitext match_id team1 team2 mc).selfContained := by
  unfold Old.create_match_from_wikitext
  exact old_create_match_core_selfContained _ _ _ _ _ _ _ _

/-!
Claim C5: true-duplicate suppression.
-/

set_option maxRecDepth 100000 in
/-- C5 (amended, proved part): the suppression mechanism of the old
assembler keys on (team display names, **final** match id): one loop
iteration either appends nothing, or appends exactly one match whose unique
key was not yet processed, recording that key — so a re-scan with the same
teams and the same final id is discarded; concretely, a page with two
byte-identical `R1M1` blocks (final ids coincide) yields exactly one Match
record, while for an `M`+digits marker the group renaming gives the second
identical block a different final id and both records are kept (first A,
then B). -/
theorem C5_amended_duplicate_suppression :
    (∀ (slug wikitext : Str) (st : Old.LoopState) (e : (Str × Nat) × Nat),
      (Old.parse_match_step slug wikitext st e).acc = st.acc ∨
      ∃ m, (Old.parse_match_step slug wikitext st e).acc = st.acc ++ [m] ∧
        Old.match_unique_key m.team1 m.team2 m.match_id ∉ st.processed_matches ∧
        (Old.parse_match_step slug wikitext st e).processed_matches =
          st.processed_matches ++ [Old.match_unique_key m.team1 m.team2 m.match_id]) ∧
    ((Old.parse_matches_from_wikitext {} freshT pageTwoR1M1Dup).1.matches'.map (·.match_id) =
      ["testcup_R1M1".toList]) ∧
    ((Old.parse_matches_from_wikitext {} freshT pageTwoM1Dup).1.matches'.map (·.match_id) =
      ["testcup_A_M1".toList, "testcup_B_M1".toList]) := by
  refine ⟨?_, by decide, by decide⟩
  intro slug wikitext st e
  obtain ⟨⟨match_id, position⟩, i⟩ := e
  simp only [Old.parse_match_step]
  cases hx : Old.extract_match_content_at_position wikitext match_id position with
  | none => left; rfl
  | some mc =>
      simp only
      by_cases hemp : mc.isEmpty
      · rw [if_pos hemp]
        left; rfl
      · rw [if_neg hemp]
        cases ho : Old.extract_opponents mc with
        | none => left; rfl
        | some opps =>
            simp only
            rcases hct : Old.create_teams_from_opponents st.ps opps with ⟨⟨team1, team2⟩, ps'⟩
            simp only [hct]
            by_cases hdup :
                Old.match_unique_key team1 team2
                    (Old.generate_final_match_id slug match_id st.existing_match_ids i)
                  ∈ st.processed_matches
            · rw [if_pos hdup]
              left; rfl
            · rw [if_neg hdup]
              right
              obtain ⟨hid, ht1, ht2⟩ :=
                old_create_match_fields
                  (Old.generate_final_match_id slug match_id st.existing_match_ids i)
                  team1 team2 mc
              refine ⟨_, rfl, ?_, ?_⟩
              · rw [hid, ht1, ht2]
                exact hdup
              · rw [hid, ht1, ht2]

set_option maxRecDepth 100000 in
/-- C5 (counterexample): a page with two byte-identical `M1` match blocks is
**not** reduced to a single record — the group disambiguation renames the
second occurrence to a different final id before the duplicate check, so the
old assembler produces two Match records for the byte-identical blocks. -/
theorem C5_counterexample_identical_blocks_kept :
    (Old.parse_matches_from_wikitext {} freshT pageTwoM1Dup).1.matches'.length = 2 ∧
    (Old.parse_matches_from_wikitext {} freshT pageTwoM1Dup).1.matches'.map (·.team1.name) =
      ["Alice + Bob".toList, "Alice + Bob".toList] := by
  exact ⟨by decide, by decide⟩

/-- C5 (witness): the per-step suppression disjunction at a concrete state
whose processed set already holds the key about to be recomputed — the step
appends nothing. -/
theorem C5_witness :
    (Old.parse_match_step "testcup".toList pageTwoR1M1Dup
        { ps := {}
          processed_matches :=
            [Old.match_unique_key tAB tCD "testcup_R1M1".toList]
          existing_match_ids := []
          acc := [] } (("R1M1".toList, 1), 0)).acc = [] ∨
    ∃ m, (Old.parse_match_step "testcup".toList pageTwoR1M1Dup
        { ps := {}
          processed_matches :=
            [Old.match_unique_key tAB tCD "testcup_R1M1".toList]
          existing_match_ids := []
          acc := [] } (("R1M1".toList, 1), 0)).acc = [] ++ [m] ∧
      Old.match_unique_key m.team1 m.team2 m.match_id ∉
        [Old.match_unique_key tAB tCD "testcup_R1M1".toList] ∧
      (Old.parse_match_step "testcup".toList pageTwoR1M1Dup
        { ps := {}
          processed_matches :=
            [Old.match_unique_key tAB tCD "testcup_R1M1".toList]
          existing_match_ids := []
          acc := [] } (("R1M1".toList, 1), 0)).processed_matches =
        [Old.match_unique_key tAB tCD "testcup_R1M1".toList] ++
          [Old.match_unique_key m.team1 m.team2 m.match_id] :=
  C5_amended_duplicate_suppression.1 "testcup".toList pageTwoR1M1Dup _ _

/-!
Claim C1: final-match-id assignment and group disambiguation.
-/

set_option maxRecDepth 100000 in
/-- C1 (amended, proved part): in the old assembler,
`_generate_final_match_id` ignores its position argument entirely and
decides the group tag by the seen-set alone: an `M`+digits marker not yet
seen is tagged `_A_`, one already seen is tagged `_B_` (after the
slash-to-underscore slug is prefixed); on the two-`M1` page with different
opponents this yields exactly two Match records with final ids
`testcup_A_M1` and `testcup_B_M1`, carrying the first and the second block's
opponents respectively — neither is dropped. -/
theorem C1_amended_seen_set_group_tagging :
    (∀ (slug id : Str) (seen : List Str) (p p' : Nat),
      Old.generate_final_match_id slug id seen p =
        Old.generate_final_match_id slug id seen p') ∧
    (∀ (slug id : Str) (seen : List Str) (p : Nat),
      startsWithMDigits id = true → id ∉ seen →
      Old.generate_final_match_id slug id seen p =
        (slug.map (fun c => if c == '/' then '_' else c)) ++ "_A_".toList ++ id) ∧
    (∀ (slug id : Str) (seen : List Str) (p : Nat),
      startsWithMDigits id = true → id ∈ seen →
      Old.generate_final_match_id slug id seen p =
        (slug.map (fun c => if c == '/' then '_' else c)) ++ "_B_".toList ++ id) ∧
    ((Old.parse_matches_from_wikitext {} freshT pageTwoM1).1.matches'.map (·.match_id) =
        ["testcup_A_M1".toList, "testcup_B_M1".toList] ∧
     (Old.parse_matches_from_wikitext {} freshT pageTwoM1).1.matches'.map (·.team1.name) =
        ["Alice + Bob".toList, "Eve + Finn".toList] ∧
     (Old.parse_matches_from_wikitext {} freshT pageTwoM1).1.matches'.map (·.team2.name) =
        ["Cara + Dan".toList, "Gus + Hal".toList]) := by
  refine ⟨?_, ?_, ?_, by decide, by decide, by decide⟩
  · intro slug id seen p p'
    rfl
  · intro slug id seen p hM hseen
    unfold Old.generate_final_match_id
    rw [if_pos hM, if_neg hseen]
  · intro slug id seen p hM hseen
    unfold Old.generate_final_match_id
    rw [if_pos hM, if_pos hseen]

/-- C1 (witness): the seen-set tagging at concrete inputs — first
occurrence of `M1` tagged A, second occurrence tagged B, for any position
argument. -/
theorem C1_witness :
    Old.generate_final_match_id "testcup".toList "M1".toList [] 0 =
      "testcup_A_M1".toList ∧
    Old.generate_final_match_id "testcup".toList "M1".toList ["M1".toList] 25 =
      "testcup_B_M1".toList := by
  constructor
  · have h := C1_amended_seen_set_group_tagging.2.1 "testcup".toList "M1".toList [] 0
      (by decide) (by decide)
    rw [h]
    decide
  · have h := C1_amended_seen_set_group_tagging.2.2.1 "testcup".toList "M1".toList
      ["M1".toList] 25 (by decide) (by decide)
    rw [h]
    decide

set_option maxRecDepth 100000 in
/-- C1 (counterexample): in the current assembler the first `M1` occurrence
keeps the raw id `M1` (no group tag at all) and the duplicate's tag comes
from the fixed positional threshold `i < 18`, not from a seen-set: with the
same seen ids, index 1 yields `A_M1` but index 20 yields `B_M1`; on the
two-`M1` page the two records get ids `M1` and `A_M1` — not one group A and
one group B — and (the extractor taking no position hint) both records carry
the first block's opponents. -/
theorem C1_counterexample_positional_threshold :
    (Tools.parse_matches_from_wikitext {} freshT pageTwoM1).1.matches'.map (·.match_id) =
      ["M1".toList, "A_M1".toList] ∧
    (Tools.parse_matches_from_wikitext {} freshT pageTwoM1).1.matches'.map (·.team1.name) =
      ["Alice + Bob".toList, "Alice + Bob".toList] ∧
    Tools.finalMatchId ["M1".toList] "M1".toList 1 = "A_M1".toList ∧
    Tools.finalMatchId ["M1".toList] "M1".toList 20 = "B_M1".toList := by
  refine ⟨by decide, by decide, by decide, by decide⟩

/-!
Claim C9: referential closure of the tournament after match parsing.
-/

theorem playerPyEq_refl (p : Player) : p.pyEq p = true := by
  simp [Player.pyEq]

theorem teamPyEq_refl (t : Team) : t.pyEq t = true := by
  simp [Team.pyEq]

theorem playerIn_insert_self (ps : List Player) (p : Player) :
    playerIn (playersInsert ps p) p := by
  unfold playersInsert
  by_cases h : playerIn ps p
  · rw [if_pos h]; exact h
  · rw [if_neg h]
    exact ⟨p, by simp, playerPyEq_refl p⟩

theorem playerIn_insert_mono (ps : List Player) (q p : Player) (h : playerIn ps p) :
    playerIn (playersInsert ps q) p := by
  unfold playersInsert
  split
  · exact h
  · obtain ⟨x, hx1, hx2⟩ := h
    exact ⟨x, by simp [hx1], hx2⟩

theorem playerIn_update_mono (vs : List Player) : ∀ (ps : List Player) (p : Player),
    playerIn ps p → playerIn (playersUpdate ps vs) p := by
  induction vs with
  | nil => intro ps p h; exact h
  | cons v rest ih =>
      intro ps p h
      exact ih _ p (playerIn_insert_mono ps v p h)

theorem playerIn_update_of_mem (vs : List Player) : ∀ (ps : List Player) (p : Player),
    p ∈ vs → playerIn (playersUpdate ps vs) p := by
  induction vs with
  | nil => intro ps p h; simp at h
  | cons v rest ih =>
      intro ps p h
      rcases List.mem_cons.mp h with rfl | hm
      · exact playerIn_update_mono rest _ p (playerIn_insert_self ps p)
      · exact ih _ p hm

theorem teamIn_insert_self (ts : List Team) (t : Team) :
    teamIn (teamsInsert ts t) t := by
  unfold teamsInsert
  by_cases h : teamIn ts t
  · rw [if_pos h]; exact h
  · rw [if_neg h]
    exact ⟨t, by simp, teamPyEq_refl t⟩

theorem teamIn_insert_mono (ts : List Team) (u t : Team) (h : teamIn ts t) :
    teamIn (teamsInsert ts u) t := by
  unfold teamsInsert
  split
  · exact h
  · obtain ⟨x, hx1, hx2⟩ := h
    exact ⟨x, by simp [hx1], hx2⟩

theorem teamIn_update_mono (vs : List Team) : ∀ (ts : List Team) (t : Team),
    teamIn ts t → teamIn (teamsUpdate ts vs) t := by
  induction vs with
  | nil => intro ts t h; exact h
  | cons v rest ih =>
      intro ts t h
      exact ih _ t (teamIn_insert_mono ts v t h)

theorem teamIn_update_of_mem (vs : List Team) : ∀ (ts : List Team) (t : Team),
    t ∈ vs → teamIn (teamsUpdate ts vs) t := by
  induction vs with
  | nil => intro ts t h; simp at h
  | cons v rest ih =>
      intro ts t h
      rcases List.mem_cons.mp h with rfl | hm
      · exact teamIn_update_mono rest _ t (teamIn_insert_self ts t)
      · exact ih _ t hm

/-- Well-formedness of the old parser caches: every cached team's two player
records are themselves cached player values.  Every reachable state of
`DataParser` satisfies this, because `_get_or_create_team` is only ever
passed players interned by `_get_or_create_player`. -/
def PStateWF (ps : Old.PState) : Prop :=
  ∀ kv ∈ ps.teams_cache, kv.2.player1 ∈ ps.players_cache.map (·.2) ∧
    kv.2.player2 ∈ ps.players_cache.map (·.2)

instance (ps : Old.PState) : Decidable (PStateWF ps) := by
  unfold PStateWF; infer_instance

theorem dictGet_mem_values {K V : Type} [DecidableEq K] (d : List (K × V)) (k : K)
    (v : V) (h : dictGet d k = some v) : v ∈ d.map (·.2) := by
  unfold dictGet at h
  cases hf : d.find? (fun kv => kv.1 = k) with
  | none => rw [hf] at h; simp at h
  | some kv =>
      rw [hf] at h
      simp only [Option.map_some', Option.some.injEq] at h
      have := List.mem_of_find?_eq_some hf
      exact h ▸ List.mem_map_of_mem (·.2) this

theorem old_gp_spec (st : Old.PState) (n : Str) :
    (Old.get_or_create_player st n).2.teams_cache = st.teams_cache ∧
    st.players_cache ⊆ (Old.get_or_create_player st n).2.players_cache ∧
    (Old.get_or_create_player st n).1 ∈
      (Old.get_or_create_player st n).2.players_cache.map (·.2) := by
  simp only [Old.get_or_create_player]
  cases hc : dictGet st.players_cache
      (spacesToUnderscores (pyLower (pyStrip (stripBraces n)))) with
  | some player =>
      exact ⟨rfl, List.Subset.refl _, dictGet_mem_values _ _ _ hc⟩
  | none =>
      refine ⟨rfl, List.subset_append_left _ _, ?_⟩
      dsimp only
      unfold dictSet
      refine List.mem_map.mpr ?_
      refine ⟨(spacesToUnderscores (pyLower (pyStrip (stripBraces n))),
        { name := pyStrip (stripBraces n)
          liquipedia_slug := spacesToUnderscores (pyLower (pyStrip (stripBraces n)))
          race := none, nationality := none }), ?_, rfl⟩
      exact List.mem_append_right _ (List.mem_singleton_self _)

theorem old_gt_spec (st : Old.PState) (n : Str) (p q : Player) :
    (Old.get_or_create_team st n p q).2.players_cache = st.players_cache ∧
    st.teams_cache ⊆ (Old.get_or_create_team st n p q).2.teams_cache ∧
    (Old.get_or_create_team st n p q).1 ∈
      (Old.get_or_create_team st n p q).2.teams_cache.map (·.2) ∧
    (PStateWF st → p ∈ st.players_cache.map (·.2) → q ∈ st.players_cache.map (·.2) →
      PStateWF (Old.get_or_create_team st n p q).2) := by
  simp only [Old.get_or_create_team]
  cases hc : dictGet st.teams_cache (sortPair p.liquipedia_slug q.liquipedia_slug) with
  | some team =>
      exact ⟨rfl, List.Subset.refl _, dictGet_mem_values _ _ _ hc, fun hwf _ _ => hwf⟩
  | none =>
      refine ⟨rfl, List.subset_append_left _ _, ?_, ?_⟩
      · dsimp only
        unfold dictSet
        refine List.mem_map.mpr ?_
        refine ⟨(sortPair p.liquipedia_slug q.liquipedia_slug,
          { name := n, player1 := p, player2 := q }), ?_, rfl⟩
        exact List.mem_append_right _ (List.mem_singleton_self _)
      · intro hwf hp hq kv hkv
        rcases List.mem_append.mp hkv with hold | hnew
        · exact hwf kv hold
        · simp only [List.mem_singleton] at hnew
          rw [hnew]
          exact ⟨hp, hq⟩

theorem old_ctfo_spec (st : Old.PState) (opps : Str × Str × Str × Str) :
    st.players_cache ⊆ (Old.create_teams_from_opponents st opps).2.players_cache ∧
    st.teams_cache ⊆ (Old.create_teams_from_opponents st opps).2.teams_cache ∧
    (Old.create_teams_from_opponents st opps).1.1 ∈
      (Old.create_teams_from_opponents st opps).2.teams_cache.map (·.2) ∧
    (Old.create_teams_from_opponents st opps).1.2 ∈
      (Old.create_teams_from_opponents st opps).2.teams_cache.map (·.2) ∧
    (PStateWF st → PStateWF (Old.create_teams_from_opponents st opps).2) := by
  obtain ⟨a, b, c, d⟩ := opps
  simp only [Old.create_teams_from_opponents]
  set r1 := Old.get_or_create_player st (pyStrip a) with hr1
  set r2 := Old.get_or_create_player r1.2 (pyStrip b) with hr2
  set r3 := Old.get_or_create_player r2.2 (pyStrip c) with hr3
  set r4 := Old.get_or_create_player r3.2 (pyStrip d) with hr4
  set r5 := Old.get_or_create_team r4.2 (r1.1.name ++ " + ".toList ++ r2.1.name) r1.1 r2.1
    with hr5
  set r6 := Old.get_or_create_team r5.2 (r3.1.name ++ " + ".toList ++ r4.1.name) r3.1 r4.1
    with hr6
  have G1 := old_gp_spec st (pyStrip a)
  rw [← hr1] at G1
  have G2 := old_gp_spec r1.2 (pyStrip b)
  rw [← hr2] at G2
  have G3 := old_gp_spec r2.2 (pyStrip c)
  rw [← hr3] at G3
  have G4 := old_gp_spec r3.2 (pyStrip d)
  rw [← hr4] at G4
  have G5 := old_gt_spec r4.2 (r1.1.name ++ " + ".toList ++ r2.1.name) r1.1 r2.1
  rw [← hr5] at G5
  have G6 := old_gt_spec r5.2 (r3.1.name ++ " + ".toList ++ r4.1.name) r3.1 r4.1
  rw [← hr6] at G6
  obtain ⟨g1t, g1s, g1m⟩ := G1
  obtain ⟨g2t, g2s, g2m⟩ := G2
  obtain ⟨g3t, g3s, g3m⟩ := G3
  obtain ⟨g4t, g4s, g4m⟩ := G4
  obtain ⟨t5p, t5s, t5m, t5wf⟩ := G5
  obtain ⟨t6p, t6s, t6m, t6wf⟩ := G6
  have hplayers : st.players_cache ⊆ r4.2.players_cache :=
    (g1s.trans g2s).trans (g3s.trans g4s)
  refine ⟨?_, ?_, ?_, ?_, ?_⟩
  · rw [t6p, t5p]
    exact hplayers
  · rw [← g1t, ← g2t, ← g3t, ← g4t]
    exact t5s.trans t6s
  · exact List.map_subset _ t6s t5m
  · exact t6m
  · intro hwf
    apply t6wf
    · apply t5wf
      · intro kv hkv
        rw [g4t, g3t, g2t, g1t] at hkv
        obtain ⟨hp1, hp2⟩ := hwf kv hkv
        exact ⟨List.map_subset _ hplayers hp1, List.map_subset _ hplayers hp2⟩
      · exact List.map_subset _ (g2s.trans (g3s.trans g4s)) g1m
      · exact List.map_subset _ (g3s.trans g4s) g2m
    · rw [t5p]
      exact List.map_subset _ g4s g3m
    · rw [t5p]
      exact g4m

/-- The invariant carried through the old assembler loop: the caches are
well-formed, and every accumulated match's two teams are cached team values
while its winners are drawn from its own teams. -/
def LoopInv (st : Old.LoopState) : Prop :=
  PStateWF st.ps ∧
  ∀ m ∈ st.acc, m.team1 ∈ st.ps.teams_cache.map (·.2) ∧
    m.team2 ∈ st.ps.teams_cache.map (·.2) ∧ m.selfContained

theorem old_step_inv (slug wikitext : Str) (st : Old.LoopState)
    (e : (Str × Nat) × Nat) (h : LoopInv st) :
    LoopInv (Old.parse_match_step slug wikitext st e) := by
  obtain ⟨⟨match_id, position⟩, i⟩ := e
  simp only [Old.parse_match_step]
  cases hx : Old.extract_match_content_at_position wikitext match_id position with
  | none => exact h
  | some mc =>
      simp only
      by_cases hemp : mc.isEmpty
      · rw [if_pos hemp]
        exact h
      · rw [if_neg hemp]
        cases ho : Old.extract_opponents mc with
        | none => exact h
        | some opps =>
            simp only
            have hspec := old_ctfo_spec st.ps opps
            rcases hct : Old.create_teams_from_opponents st.ps opps with ⟨⟨team1, team2⟩, ps'⟩
            rw [hct] at hspec
            obtain ⟨hsubP, hsubT, ht1, ht2, hwf⟩ := hspec
            simp only [hct]
            by_cases hdup :
                Old.match_unique_key team1 team2
                    (Old.generate_final_match_id slug match_id st.existing_match_ids i)
                  ∈ st.processed_matches
            · rw [if_pos hdup]
              refine ⟨hwf h.1, ?_⟩
              intro m hm
              obtain ⟨m1, m2, msc⟩ := h.2 m hm
              exact ⟨List.map_subset _ hsubT m1, List.map_subset _ hsubT m2, msc⟩
            · rw [if_neg hdup]
              refine ⟨hwf h.1, ?_⟩
              intro m hm
              rcases List.mem_append.mp hm with hold | hnew
              · obtain ⟨m1, m2, msc⟩ := h.2 m hold
                exact ⟨List.map_subset _ hsubT m1, List.map_subset _ hsubT m2, msc⟩
              · simp only [List.mem_singleton] at hnew
                subst hnew
                obtain ⟨hid, hmt1, hmt2⟩ := old_create_match_fields
                  (Old.generate_final_match_id slug match_id st.existing_match_ids i)
                  team1 team2 mc
                refine ⟨?_, ?_, ?_⟩
                · rw [hmt1]; exact ht1
                · rw [hmt2]; exact ht2
                · unfold Old.create_match_from_wikitext
                  exact old_create_match_core_selfContained _ _ _ _ _ _ _ _

theorem old_fold_inv (slug wikitext : Str) :
    ∀ (entries : List ((Str × Nat) × Nat)) (st : Old.LoopState), LoopInv st →
      LoopInv (entries.foldl (Old.parse_match_step slug wikitext) st) := by
  intro entries
  induction entries with
  | nil => intro st h; exact h
  | cons e rest ih =>
      intro st h
      exact ih _ (old_step_inv slug wikitext st e h)

/-- Well-formedness of the current parser caches: every cached team's two
player records are themselves cached player values.  Every reachable state
of the current `DataParser` satisfies this, because
`_get_or_create_team_by_players` is only ever passed players interned by
`_get_or_create_player_by_name`. -/
def ToolsPStateWF (ps : Tools.PState) : Prop :=
  ∀ kv ∈ ps.teams_cache_by_key, kv.2.player1 ∈ ps.players_cache_by_name.map (·.2) ∧
    kv.2.player2 ∈ ps.players_cache_by_name.map (·.2)

instance (ps : Tools.PState) : Decidable (ToolsPStateWF ps) := by
  unfold ToolsPStateWF; infer_instance

theorem tools_gp_spec (st : Tools.PState) (n : Str) :
    (Tools.get_or_create_player_by_name st n).2.teams_cache_by_key =
      st.teams_cache_by_key ∧
    st.players_cache_by_name ⊆
      (Tools.get_or_create_player_by_name st n).2.players_cache_by_name ∧
    (Tools.get_or_create_player_by_name st n).1 ∈
      (Tools.get_or_create_player_by_name st n).2.players_cache_by_name.map (·.2) := by
  simp only [Tools.get_or_create_player_by_name]
  cases hc : dictGet st.players_cache_by_name n with
  | some player =>
      exact ⟨rfl, List.Subset.refl _, dictGet_mem_values _ _ _ hc⟩
  | none =>
      refine ⟨rfl, List.subset_append_left _ _, ?_⟩
      dsimp only
      unfold dictSet
      refine List.mem_map.mpr ?_
      refine ⟨(n,
        { name := pyStrip (stripBraces n)
          liquipedia_slug := spacesToUnderscores (pyLower (pyStrip (stripBraces n)))
          race := none, nationality := none }), ?_, rfl⟩
      exact List.mem_append_right _ (List.mem_singleton_self _)

theorem tools_gt_spec (st : Tools.PState) (n : Str) (p q : Player) :
    (Tools.get_or_create_team_by_players st n p q).2.players_cache_by_name =
      st.players_cache_by_name ∧
    st.teams_cache_by_key ⊆
      (Tools.get_or_create_team_by_players st n p q).2.teams_cache_by_key ∧
    (Tools.get_or_create_team_by_players st n p q).1 ∈
      (Tools.get_or_create_team_by_players st n p q).2.teams_cache_by_key.map (·.2) ∧
    (ToolsPStateWF st → p ∈ st.players_cache_by_name.map (·.2) →
      q ∈ st.players_cache_by_name.map (·.2) →
      ToolsPStateWF (Tools.get_or_create_team_by_players st n p q).2) := by
  simp only [Tools.get_or_create_team_by_players]
  cases hc : dictGet st.teams_cache_by_key (p.name ++ ('+' :: q.name)) with
  | some team =>
      exact ⟨rfl, List.Subset.refl _, dictGet_mem_values _ _ _ hc, fun hwf _ _ => hwf⟩
  | none =>
      refine ⟨rfl, List.subset_append_left _ _, ?_, ?_⟩
      · dsimp only
        unfold dictSet
        refine List.mem_map.mpr ?_
        refine ⟨(p.name ++ ('+' :: q.name),
          { name := n, player1 := p, player2 := q }), ?_, rfl⟩
        exact List.mem_append_right _ (List.mem_singleton_self _)
      · intro hwf hp hq kv hkv
        rcases List.mem_append.mp hkv with hold | hnew
        · exact hwf kv hold
        · simp only [List.mem_singleton] at hnew
          rw [hnew]
          exact ⟨hp, hq⟩

theorem tools_create_match_fields (match_id : Str) (team1 team2 : Team) (mc : Str) :
    (Tools.create_match_from_wikitext match_id team1 team2 mc).match_id = match_id ∧
    (Tools.create_match_from_wikitext match_id team1 team2 mc).team1 = team1 ∧
    (Tools.create_match_from_wikitext match_id team1 team2 mc).team2 = team2 ∧
    (Tools.create_match_from_wikitext match_id team1 team2 mc).games =
      Tools.extract_games_from_content mc team1 team2 := by
  simp only [Tools.create_match_from_wikitext]
  refine ⟨?_, ?_, ?_, ?_⟩ <;> (repeat' split) <;> rfl

theorem tools_create_match_selfContained (match_id : Str) (team1 team2 : Team)
    (mc : Str) :
    (Tools.create_match_from_wikitext match_id team1 team2 mc).selfContained := by
  obtain ⟨_, ht1, ht2, hg⟩ := tools_create_match_fields match_id team1 team2 mc
  unfold Match.selfContained
  rw [ht1, ht2, hg]
  constructor
  · simp only [Tools.create_match_from_wikitext]
    (repeat' split) <;> simp
  · intro g hgm
    unfold Tools.extract_games_from_content at hgm
    obtain ⟨e, _, he⟩ := List.mem_filterMap.mp hgm
    rcases resolveDetailedGame_winner team1 team2 e g he with h | h
    · exact Or.inr (Or.inl h)
    · exact Or.inr (Or.inr h)

/-- The invariant carried through the current assembler loop, as `LoopInv`
for the old one. -/
def ToolsLoopInv (st : Tools.LoopState) : Prop :=
  ToolsPStateWF st.ps ∧
  ∀ m ∈ st.acc, m.team1 ∈ st.ps.teams_cache_by_key.map (·.2) ∧
    m.team2 ∈ st.ps.teams_cache_by_key.map (·.2) ∧ m.selfContained

theorem tools_step_inv (tms : List Match) (wikitext : Str) (st : Tools.LoopState)
    (e : Nat × Str) (h : ToolsLoopInv st) :
    ToolsLoopInv (Tools.parse_match_step tms wikitext st e) := by
  obtain ⟨i, match_id⟩ := e
  simp only [Tools.parse_match_step]
  cases hx : Tools.extract_match_content wikitext match_id with
  | none => exact h
  | some mc =>
      simp only
      by_cases hemp : mc.isEmpty
      · rw [if_pos hemp]
        exact h
      · rw [if_neg hemp]
        cases ho : Tools.extract_opponents mc with
        | none => exact h
        | some opps =>
            obtain ⟨p1, p2, p3, p4⟩ := opps
            simp only
            set r1 := Tools.get_or_create_player_by_name st.ps (pyStrip p1) with hr1
            set r2 := Tools.get_or_create_player_by_name r1.2 (pyStrip p2) with hr2
            set r3 := Tools.get_or_create_player_by_name r2.2 (pyStrip p3) with hr3
            set r4 := Tools.get_or_create_player_by_name r3.2 (pyStrip p4) with hr4
            set r5 := Tools.get_or_create_team_by_players r4.2
              (r1.1.name ++ " + ".toList ++ r2.1.name) r1.1 r2.1 with hr5
            set r6 := Tools.get_or_create_team_by_players r5.2
              (r3.1.name ++ " + ".toList ++ r4.1.name) r3.1 r4.1 with hr6
            have G1 := tools_gp_spec st.ps (pyStrip p1)
            rw [← hr1] at G1
            have G2 := tools_gp_spec r1.2 (pyStrip p2)
            rw [← hr2] at G2
            have G3 := tools_gp_spec r2.2 (pyStrip p3)
            rw [← hr3] at G3
            have G4 := tools_gp_spec r3.2 (pyStrip p4)
            rw [← hr4] at G4
            have G5 := tools_gt_spec r4.2 (r1.1.name ++ " + ".toList ++ r2.1.name) r1.1 r2.1
            rw [← hr5] at G5
            have G6 := tools_gt_spec r5.2 (r3.1.name ++ " + ".toList ++ r4.1.name) r3.1 r4.1
            rw [← hr6] at G6
            obtain ⟨g1t, g1s, g1m⟩ := G1
            obtain ⟨g2t, g2s, g2m⟩ := G2
            obtain ⟨g3t, g3s, g3m⟩ := G3
            obtain ⟨g4t, g4s, g4m⟩ := G4
            obtain ⟨t5p, t5s, t5m, t5wf⟩ := G5
            obtain ⟨t6p, t6s, t6m, t6wf⟩ := G6
            have hplayers : st.ps.players_cache_by_name ⊆ r4.2.players_cache_by_name :=
              (g1s.trans g2s).trans (g3s.trans g4s)
            have hteams : st.ps.teams_cache_by_key ⊆ r6.2.teams_cache_by_key := by
              rw [← g1t, ← g2t, ← g3t, ← g4t]
              exact t5s.trans t6s
            have hwfq : ToolsPStateWF r6.2 := by
              apply t6wf
              · apply t5wf
                · intro kv hkv
                  rw [g4t, g3t, g2t, g1t] at hkv
                  obtain ⟨hp1, hp2⟩ := h.1 kv hkv
                  exact ⟨List.map_subset _ hplayers hp1, List.map_subset _ hplayers hp2⟩
                · exact List.map_subset _ (g2s.trans (g3s.trans g4s)) g1m
                · exact List.map_subset _ (g3s.trans g4s) g2m
              · rw [t5p]
                exact List.map_subset _ g4s g3m
              · rw [t5p]
                exact g4m
            have ht1m : r5.1 ∈ r6.2.teams_cache_by_key.map (·.2) :=
              List.map_subset _ t6s t5m
            by_cases hdup :
                Old.match_unique_key r5.1 r6.1
                    (Tools.finalMatchId ((tms ++ st.acc).map (·.match_id)) match_id i)
                  ∈ st.processed_matches
            · rw [if_pos hdup]
              refine ⟨hwfq, ?_⟩
              intro m hm
              obtain ⟨m1, m2, msc⟩ := h.2 m hm
              exact ⟨List.map_subset _ hteams m1, List.map_subset _ hteams m2, msc⟩
            · rw [if_neg hdup]
              refine ⟨hwfq, ?_⟩
              intro m hm
              rcases List.mem_append.mp hm with hold | hnew
              · obtain ⟨m1, m2, msc⟩ := h.2 m hold
                exact ⟨List.map_subset _ hteams m1, List.map_subset _ hteams m2, msc⟩
              · simp only [List.mem_singleton] at hnew
                subst hnew
                obtain ⟨hid, hmt1, hmt2, hmg⟩ := tools_create_match_fields
                  (Tools.finalMatchId ((tms ++ st.acc).map (·.match_id)) match_id i)
                  r5.1 r6.1 mc
                refine ⟨?_, ?_, ?_⟩
                · rw [hmt1]; exact ht1m
                · rw [hmt2]; exact t6m
                · exact tools_create_match_selfContained _ _ _ _

theorem tools_fold_inv (tms : List Match) (wikitext : Str) :
    ∀ (entries : List (Nat × Str)) (st : Tools.LoopState), ToolsLoopInv st →
      ToolsLoopInv (entries.foldl (Tools.parse_match_step tms wikitext) st) := by
  intro entries
  induction entries with
  | nil => intro st h; exact h
  | cons e rest ih =>
      intro st h
      exact ih _ (tools_step_inv tms wikitext st e h)

theorem add_match_refClosed (t : Tournament) (m : Match)
    (h : t.refClosed) (hm : m.selfContained) : (t.add_match m).refClosed := by
  intro m' hm'
  have hteams : ∀ u, teamIn t.teams u → teamIn (t.add_match m).teams u := by
    intro u hu
    exact teamIn_insert_mono _ _ _ (teamIn_insert_mono _ _ _ hu)
  have hplayers : ∀ p, playerIn t.players p → playerIn (t.add_match m).players p := by
    intro p hp
    exact playerIn_insert_mono _ _ _
      (playerIn_insert_mono _ _ _ (playerIn_insert_mono _ _ _ (playerIn_insert_mono _ _ _ hp)))
  have hmteam1 : teamIn (t.add_match m).teams m.team1 :=
    teamIn_insert_mono _ _ _ (teamIn_insert_self _ _)
  have hmteam2 : teamIn (t.add_match m).teams m.team2 := teamIn_insert_self _ _
  rcases List.mem_append.mp hm' with hold | hnew
  · obtain ⟨c1, c2, c3, c4, c5, c6, c7, c8⟩ := h m' hold
    exact ⟨hteams _ c1, hteams _ c2, hplayers _ c3, hplayers _ c4, hplayers _ c5,
      hplayers _ c6, fun w hw => hteams _ (c7 w hw),
      fun g hg w hw => hteams _ (c8 g hg w hw)⟩
  · simp only [List.mem_singleton] at hnew
    subst hnew
    refine ⟨hmteam1, hmteam2, ?_, ?_, ?_, ?_, ?_, ?_⟩
    · exact playerIn_insert_mono _ _ _ (playerIn_insert_mono _ _ _
        (playerIn_insert_mono _ _ _ (playerIn_insert_self _ _)))
    · exact playerIn_insert_mono _ _ _ (playerIn_insert_mono _ _ _
        (playerIn_insert_self _ _))
    · exact playerIn_insert_mono _ _ _ (playerIn_insert_self _ _)
    · exact playerIn_insert_self _ _
    · intro w hw
      rcases hm.1 with h0 | h0 | h0
      · rw [hw] at h0; exact absurd h0 (by simp)
      · rw [hw] at h0
        injection h0 with h0'
        rw [h0']
        exact hmteam1
      · rw [hw] at h0
        injection h0 with h0'
        rw [h0']
        exact hmteam2
    · intro g hg w hw
      rcases hm.2 g hg with h0 | h0 | h0
      · rw [hw] at h0; exact absurd h0 (by simp)
      · rw [hw] at h0
        injection h0 with h0'
        rw [h0']
        exact hmteam1
      · rw [hw] at h0
        injection h0 with h0'
        rw [h0']
        exact hmteam2

/-- C9 (confirmed): after match parsing, every player and team referenced by
any match of the tournament (its two teams, their four players, the match
winner and each game winner) also appears in `tournament.players` /
`tournament.teams`: both wikitext assemblers — the Olditeration one and the
current (src/tools) one — establish it by copying every cached player and
team into the tournament after the marker loop, and the tabular (LPDB) path
maintains it through `Tournament.add_match`, whatever the per-row parser
returns (its matches reference only their own two teams). -/
theorem C9_referential_closure :
    (∀ (ps : Old.PState) (t : Tournament) (w : Str),
      PStateWF ps → t.matches' = [] →
      (Old.parse_matches_from_wikitext ps t w).1.refClosed) ∧
    (∀ (ps : Tools.PState) (t : Tournament) (w : Str),
      ToolsPStateWF ps → t.matches' = [] →
      (Tools.parse_matches_from_wikitext ps t w).1.refClosed) ∧
    (∀ (t : Tournament) (parsed : List (Option Match)),
      t.refClosed →
      (∀ om ∈ parsed, ∀ m, om = some m → m.selfContained) →
      (parse_matches_from_lpdb_loop t parsed).refClosed) := by
  refine ⟨?_, ?_, ?_⟩
  · intro ps t w hwf ht
    have hinv := old_fold_inv t.liquipedia_slug w
      ((findMatchMarkers w).enum.map (fun p => (p.2, p.1)))
      { ps := ps } ⟨hwf, by intro m hm; simp at hm⟩
    set F := ((findMatchMarkers w).enum.map (fun p => (p.2, p.1))).foldl
      (Old.parse_match_step t.liquipedia_slug w) { ps := ps } with hF
    intro m hm
    simp only [Old.parse_matches_from_wikitext] at hm ⊢
    rw [← hF] at hm ⊢
    rw [ht] at hm
    simp only [List.nil_append] at hm
    obtain ⟨m1, m2, msc⟩ := hinv.2 m hm
    have hp1 : m.team1.player1 ∈ F.ps.players_cache.map (·.2) ∧
        m.team1.player2 ∈ F.ps.players_cache.map (·.2) := by
      obtain ⟨kv, hkv, hkve⟩ := List.mem_map.mp m1
      have hw := hinv.1 kv hkv
      rw [hkve] at hw
      exact hw
    have hp2 : m.team2.player1 ∈ F.ps.players_cache.map (·.2) ∧
        m.team2.player2 ∈ F.ps.players_cache.map (·.2) := by
      obtain ⟨kv, hkv, hkve⟩ := List.mem_map.mp m2
      have hw := hinv.1 kv hkv
      rw [hkve] at hw
      exact hw
    refine ⟨teamIn_update_of_mem _ t.teams _ m1, teamIn_update_of_mem _ t.teams _ m2,
      playerIn_update_of_mem _ t.players _ hp1.1, playerIn_update_of_mem _ t.players _ hp1.2,
      playerIn_update_of_mem _ t.players _ hp2.1, playerIn_update_of_mem _ t.players _ hp2.2,
      ?_, ?_⟩
    · intro wteam hw
      rcases msc.1 with h0 | h0 | h0
      · rw [hw] at h0; exact absurd h0 (by simp)
      · rw [hw] at h0
        injection h0 with h0q
        rw [h0q]
        exact teamIn_update_of_mem _ t.teams _ m1
      · rw [hw] at h0
        injection h0 with h0q
        rw [h0q]
        exact teamIn_update_of_mem _ t.teams _ m2
    · intro g hg wteam hw
      rcases msc.2 g hg with h0 | h0 | h0
      · rw [hw] at h0; exact absurd h0 (by simp)
      · rw [hw] at h0
        injection h0 with h0q
        rw [h0q]
        exact teamIn_update_of_mem _ t.teams _ m1
      · rw [hw] at h0
        injection h0 with h0q
        rw [h0q]
        exact teamIn_update_of_mem _ t.teams _ m2
  · intro ps t w hwf ht
    have hinv := tools_fold_inv t.matches' w ((findMatchMarkers w).map (·.1)).enum
      { ps := ps } ⟨hwf, by intro m hm; simp at hm⟩
    set F := ((findMatchMarkers w).map (·.1)).enum.foldl
      (Tools.parse_match_step t.matches' w) { ps := ps } with hF
    intro m hm
    simp only [Tools.parse_matches_from_wikitext] at hm ⊢
    rw [← hF] at hm ⊢
    rw [ht] at hm
    simp only [List.nil_append] at hm
    obtain ⟨m1, m2, msc⟩ := hinv.2 m hm
    have hp1 : m.team1.player1 ∈ F.ps.players_cache_by_name.map (·.2) ∧
        m.team1.player2 ∈ F.ps.players_cache_by_name.map (·.2) := by
      obtain ⟨kv, hkv, hkve⟩ := List.mem_map.mp m1
      have hw := hinv.1 kv hkv
      rw [hkve] at hw
      exact hw
    have hp2 : m.team2.player1 ∈ F.ps.players_cache_by_name.map (·.2) ∧
        m.team2.player2 ∈ F.ps.players_cache_by_name.map (·.2) := by
      obtain ⟨kv, hkv, hkve⟩ := List.mem_map.mp m2
      have hw := hinv.1 kv hkv
      rw [hkve] at hw
      exact hw
    refine ⟨teamIn_update_of_mem _ t.teams _ m1, teamIn_update_of_mem _ t.teams _ m2,
      playerIn_update_of_mem _ t.players _ hp1.1, playerIn_update_of_mem _ t.players _ hp1.2,
      playerIn_update_of_mem _ t.players _ hp2.1, playerIn_update_of_mem _ t.players _ hp2.2,
      ?_, ?_⟩
    · intro wteam hw
      rcases msc.1 with h0 | h0 | h0
      · rw [hw] at h0; exact absurd h0 (by simp)
      · rw [hw] at h0
        injection h0 with h0q
        rw [h0q]
        exact teamIn_update_of_mem _ t.teams _ m1
      · rw [hw] at h0
        injection h0 with h0q
        rw [h0q]
        exact teamIn_update_of_mem _ t.teams _ m2
    · intro g hg wteam hw
      rcases msc.2 g hg with h0 | h0 | h0
      · rw [hw] at h0; exact absurd h0 (by simp)
      · rw [hw] at h0
        injection h0 with h0q
        rw [h0q]
        exact teamIn_update_of_mem _ t.teams _ m1
      · rw [hw] at h0
        injection h0 with h0q
        rw [h0q]
        exact teamIn_update_of_mem _ t.teams _ m2
  · intro t parsed
    induction parsed generalizing t with
    | nil => intro h _; exact h
    | cons om rest ih =>
        intro h hsc
        unfold parse_matches_from_lpdb_loop
        simp only [List.foldl_cons]
        cases om with
        | none =>
            exact ih t h (fun om' hm' => hsc om' (List.mem_cons_of_mem _ hm'))
        | some m =>
            exact ih (t.add_match m)
              (add_match_refClosed t m h (hsc (some m) (List.mem_cons_self _ _) m rfl))
              (fun om' hm' => hsc om' (List.mem_cons_of_mem _ hm'))

/-- C9 (witness): the closure at the concrete two-`M1` page parsed into a
fresh tournament with fresh caches — through the Olditeration assembler and
through the current one — and at a one-row LPDB loop adding a
self-contained match to a fresh tournament. -/
theorem C9_witness :
    (Old.parse_matches_from_wikitext {} freshT pageTwoM1).1.refClosed ∧
    (Tools.parse_matches_from_wikitext {} freshT pageTwoM1).1.refClosed ∧
    (parse_matches_from_lpdb_loop freshT
        [some { match_id := "W".toList, team1 := tAB, team2 := tCD }]).refClosed :=
  ⟨C9_referential_closure.1 {} freshT pageTwoM1 (by decide) rfl,
   C9_referential_closure.2.1 {} freshT pageTwoM1 (by decide) rfl,
   C9_referential_closure.2.2 freshT _ (by decide)
     (by intro om hm m hsome
         simp at hm
         rw [hm] at hsome
         injection hsome with h'
         rw [← h']
         exact ⟨Or.inl rfl, by intro g hg; simp at hg⟩)⟩

end SC2Stats
